import Mathlib

/-!
# DIOPI-IMPL (camb backend): dtype casting and promotion

A shallow embedding of `src/camb/common/dtype_cast.cpp` together with the parts of
`src/camb/diopi_helper.hpp` it relies on (`DIOPI_CHECK`, `DIOPI_CALL`, `requiresTensor`), and of
the layout synthesis `DiopiTensor::contiguous` of `src/camb/diopi_helper.hpp`.

Conventions of the embedding.

* A tensor handle is a natural number; a `DiopiTensor` is the handle together with the
  element type and shape the runtime reports for it (`dtype()`, `shape()`).  Handles are
  taken to be valid: the throwing path of `DIOPI_CHECK_NULLPTR` is outside the model.
* The external runtime is a value of type `Runtime` threaded through every call.  It records
  every `diopiRequireTensor` request and every `cnnlCastDataType` invocation, oldest first.
* The outcome of `DIOPI_CHECKCNNL(cnnlCastDataType(..))` is an oracle argument `hw`.
* `gCnnlCastDataTypeMapping` (declared in `common.hpp`) is an argument `tbl`.
* The numeric values of the `diopiDtype_t` enumerators (declared in `diopirt.h`) are an
  argument `code`: `code d` is the value of `static_cast<uint64_t>(d)`.  Results that depend
  on `_MAKE_KEY` telling pairs apart assume `DistinctCodes code`.
* The recursion between `dataTypeCast` and `dataTypeCastInternal` is bounded by a fuel
  argument; running out of fuel is `none`.
* `autoCastTensorType` receives pointers: the caller's tensor variables are a memory
  `Nat → DiopiTensor` and `pTensors` is a list of addresses.
* Extents and strides are `Int`; the `int64_t` product in `contiguous` is reduced by
  `wrapInt64`, and results about products carry the assumption that they are in the int64
  range (signed overflow is undefined in the source language).  An index outside the
  `strides` vector or the shape array is `none`.
-/

namespace impl.camb

/-- Status codes returned by the functions of `dtype_cast.cpp`. -/
inductive diopiError_t
  | diopiSuccess
  | diopiErrorOccurred
  | diopiDtypeNotSupported
  deriving DecidableEq, Repr

/-- Modelled from the spec: the enumeration `diopiDtype_t` is declared in `diopirt.h`, which is
not among the sources.  Section 3 of the specification: "an enumerated tag over: boolean,
signed/unsigned integers of width 8/16/32/64, half/single/double floating point".  The
constructor names are the enumerator names used in `dtype_cast.cpp`. -/
inductive diopiDtype_t
  | diopi_dtype_int8
  | diopi_dtype_uint8
  | diopi_dtype_int16
  | diopi_dtype_uint16
  | diopi_dtype_int32
  | diopi_dtype_uint32
  | diopi_dtype_int64
  | diopi_dtype_uint64
  | diopi_dtype_float16
  | diopi_dtype_float32
  | diopi_dtype_float64
  | diopi_dtype_bool
  deriving DecidableEq, Repr

/-- Operation codes of the kernel library's cast unit.  `dtype_cast.cpp` names three of them;
every other code of the library is `other n`. -/
inductive cnnlCastDataType_t
  | CNNL_CAST_INT32_TO_INT64
  | CNNL_CAST_INT32_TO_BOOL
  | CNNL_CAST_INT32_TO_INT8
  | other (n : Nat)
  deriving DecidableEq, Repr

open diopiError_t diopiDtype_t cnnlCastDataType_t

/-- A tensor wrapper: the handle `tensor_` and what `dtype()` and `shape()` report for it. -/
structure DiopiTensor where
  tensor_ : Nat
  dtype : diopiDtype_t
  shape : List Int
  deriving DecidableEq, Repr

/-- One call of `diopiRequireTensor`: requested shape, requested stride (`none` for the null
pointer passed by `requiresTensor`) and element type. -/
structure RequireCall where
  size : List Int
  stride : Option (List Int)
  dtype : diopiDtype_t
  deriving DecidableEq, Repr

/-- One call of `cnnlCastDataType`: the input tensor, the operation code, the output tensor. -/
structure CnnlCastCall where
  input : DiopiTensor
  cast_type : cnnlCastDataType_t
  output : DiopiTensor
  deriving DecidableEq, Repr

/-- The external runtime as seen by the cast code: the next handle the allocator hands out,
the requests made so far and the hardware casts issued so far. -/
structure Runtime where
  nextHandle : Nat
  required : List RequireCall
  casts : List CnnlCastCall
  deriving DecidableEq, Repr

/-- The direct-cast table `gCnnlCastDataTypeMapping`: `tbl s d = some op` when the pair is a
key of the map, `none` when `find` returns `end()`. -/
abbrev CastTable := diopiDtype_t → diopiDtype_t → Option cnnlCastDataType_t

/-- The outcome of `DIOPI_CHECKCNNL(cnnlCastDataType(..))`: `none` when control continues
past the check, `some e` when the check returns early with status `e`. -/
abbrev CastOracle := Runtime → CnnlCastCall → Option diopiError_t

/-- The external allocator call `diopiRequireTensor(ctx, &tensor, &size, stride, dtype, device)`:
the request is recorded and a tensor with the next handle is returned. -/
def diopiRequireTensor (ctx : Runtime) (size : List Int) (stride : Option (List Int))
    (dtype : diopiDtype_t) : Runtime × DiopiTensor :=
  (Runtime.mk (ctx.nextHandle + 1) (ctx.required ++ [RequireCall.mk size stride dtype]) ctx.casts,
   DiopiTensor.mk ctx.nextHandle dtype size)

/-- `requiresTensor` of `diopi_helper.hpp`: a request with a null stride pointer. -/
def requiresTensor (ctx : Runtime) (size : List Int) (dtype : diopiDtype_t) :
    Runtime × DiopiTensor :=
  diopiRequireTensor ctx size none dtype

/-- The macro `_MAKE_KEY(a, b)` on 64-bit unsigned values:
`((uint64(a) & 0xFFFFFFFF) << 32) | (uint64(b) & 0xFFFFFFFF)`. -/
def MAKE_KEY (a b : Nat) : Nat :=
  ((((a % 2 ^ 64) &&& 0xFFFFFFFF) <<< 32) % 2 ^ 64) ||| ((b % 2 ^ 64) &&& 0xFFFFFFFF)

section keys
variable (code : diopiDtype_t → Nat)

def BoolInt64 : Nat := MAKE_KEY (code diopi_dtype_bool) (code diopi_dtype_int64)
def Int16Int64 : Nat := MAKE_KEY (code diopi_dtype_int16) (code diopi_dtype_int64)
def Uint8Bool : Nat := MAKE_KEY (code diopi_dtype_uint8) (code diopi_dtype_bool)
def Int16Bool : Nat := MAKE_KEY (code diopi_dtype_int16) (code diopi_dtype_bool)
def Int64Bool : Nat := MAKE_KEY (code diopi_dtype_int64) (code diopi_dtype_bool)
def Int8Bool : Nat := MAKE_KEY (code diopi_dtype_int8) (code diopi_dtype_bool)
def Int8Int64 : Nat := MAKE_KEY (code diopi_dtype_int8) (code diopi_dtype_int64)
def Int64Int8 : Nat := MAKE_KEY (code diopi_dtype_int64) (code diopi_dtype_int8)

/-- The `switch (key)` of `dataTypeCastInternal`: the argument `TYPE` of the
`CAST_TYPE_THROUGH_INT32` case that matches `key`, or `none` for the `default` label. -/
def switchKey (key : Nat) : Option cnnlCastDataType_t :=
  if key = BoolInt64 code then some CNNL_CAST_INT32_TO_INT64
  else if key = Int16Int64 code then some CNNL_CAST_INT32_TO_INT64
  else if key = Int8Int64 code then some CNNL_CAST_INT32_TO_INT64
  else if key = Uint8Bool code then some CNNL_CAST_INT32_TO_BOOL
  else if key = Int16Bool code then some CNNL_CAST_INT32_TO_BOOL
  else if key = Int64Bool code then some CNNL_CAST_INT32_TO_BOOL
  else if key = Int8Bool code then some CNNL_CAST_INT32_TO_BOOL
  else if key = Int64Int8 code then some CNNL_CAST_INT32_TO_INT8
  else none

end keys

/-- Lines 74-79 of `dataTypeCastInternal`: the call of `cnnlCastDataType` under
`DIOPI_CHECKCNNL`, followed by `return diopiSuccess`. -/
def cnnlCastDataType (hw : CastOracle) (ctx : Runtime) (src : DiopiTensor)
    (cast_type : cnnlCastDataType_t) (dest : DiopiTensor) : diopiError_t × Runtime :=
  let call := CnnlCastCall.mk src cast_type dest
  let ctx1 := Runtime.mk ctx.nextHandle ctx.required (ctx.casts ++ [call])
  match hw ctx call with
  | some e => (e, ctx1)
  | none => (diopiSuccess, ctx1)

mutual

/-- The function `dataTypeCastInternal(ctx, src, dest)`.  `src` is passed by value, so the nested
`dataTypeCast(ctx, src, diopi_dtype_int32)` of `CAST_TYPE_THROUGH_INT32` rebinds the local copy
only; the status the nested call returns is dropped by the macro. -/
def dataTypeCastInternal (tbl : CastTable) (code : diopiDtype_t → Nat) (hw : CastOracle) :
    Nat → Runtime → DiopiTensor → DiopiTensor → Option (diopiError_t × Runtime)
  | 0, _, _, _ => none
  | fuel + 1, ctx, src, dest =>
    match tbl src.dtype dest.dtype with
    | some cast_type => some (cnnlCastDataType hw ctx src cast_type dest)
    | none =>
      match switchKey code (MAKE_KEY (code src.dtype) (code dest.dtype)) with
      | some cast_type =>
        match dataTypeCast tbl code hw fuel ctx src diopi_dtype_int32 with
        | none => none
        | some (_, ctx1, src1) => some (cnnlCastDataType hw ctx1 src1 cast_type dest)
      | none => some (diopiDtypeNotSupported, ctx)

/-- The function `dataTypeCast(ctx, src, destDtype)`; the third component of the result is the
value of the reference parameter `src` on return. -/
def dataTypeCast (tbl : CastTable) (code : diopiDtype_t → Nat) (hw : CastOracle) :
    Nat → Runtime → DiopiTensor → diopiDtype_t → Option (diopiError_t × Runtime × DiopiTensor)
  | 0, _, _, _ => none
  | fuel + 1, ctx, src, destDtype =>
    if src.dtype = destDtype then some (diopiSuccess, ctx, src)
    else
      match requiresTensor ctx src.shape destDtype with
      | (ctx1, dest) =>
        match dataTypeCastInternal tbl code hw fuel ctx1 src dest with
        | none => none
        | some (ret, ctx2) =>
          if diopiSuccess ≠ ret then some (ret, ctx2, src)
          else some (diopiSuccess, ctx2, dest)

end

/-- The function `dataTypeCast(ctx, dest, src)`, casting into an existing destination.  `dest` is
not assigned by the function, so only the status and the runtime are returned. -/
def dataTypeCastInto (tbl : CastTable) (code : diopiDtype_t → Nat) (hw : CastOracle)
    (fuel : Nat) (ctx : Runtime) (dest src : DiopiTensor) : Option (diopiError_t × Runtime) :=
  if src.dtype = dest.dtype then some (diopiSuccess, ctx)
  else if ¬ (src.shape = dest.shape) then some (diopiErrorOccurred, ctx)
  else dataTypeCastInternal tbl code hw fuel ctx src dest

/-- The function `choiceDtype`: the first of float32, float16, int32, int16, int8, bool that the
operator supports is written through the out-parameter (`Except.ok`); when none is supported
the out-parameter is left alone and `diopiDtypeNotSupported` is returned. -/
def choiceDtype (opSupportedDtypes : Finset diopiDtype_t) : Except diopiError_t diopiDtype_t :=
  if diopi_dtype_float32 ∈ opSupportedDtypes then Except.ok diopi_dtype_float32
  else if diopi_dtype_float16 ∈ opSupportedDtypes then Except.ok diopi_dtype_float16
  else if diopi_dtype_int32 ∈ opSupportedDtypes then Except.ok diopi_dtype_int32
  else if diopi_dtype_int16 ∈ opSupportedDtypes then Except.ok diopi_dtype_int16
  else if diopi_dtype_int8 ∈ opSupportedDtypes then Except.ok diopi_dtype_int8
  else if diopi_dtype_bool ∈ opSupportedDtypes then Except.ok diopi_dtype_bool
  else Except.error diopiDtypeNotSupported

/-- Lines 124-128 of `autoCastTensorType`: the set `dtypeAndTensorPtrs`, filled by inserting
the element type of every pointed-to tensor in list order. -/
def collectDtypes (mem : Nat → DiopiTensor) (pTensors : List Nat) : Finset diopiDtype_t :=
  pTensors.foldl (fun s pTensor => insert (mem pTensor).dtype s) ∅

/-- Lines 129-173 of `autoCastTensorType`: the value of `targetType` when control reaches the
cast loop (`Except.ok`), or the status of the early return (`Except.error`). -/
def selectTargetType (dtypeAndTensorPtrs opSupportedDtype : Finset diopiDtype_t) :
    Except diopiError_t diopiDtype_t :=
  if diopi_dtype_float64 ∈ dtypeAndTensorPtrs ∨ diopi_dtype_float32 ∈ dtypeAndTensorPtrs then
    if diopi_dtype_float32 ∉ opSupportedDtype then choiceDtype opSupportedDtype
    else Except.ok diopi_dtype_float32
  else if diopi_dtype_float16 ∈ dtypeAndTensorPtrs then
    if diopi_dtype_float16 ∉ opSupportedDtype then choiceDtype opSupportedDtype
    else Except.ok diopi_dtype_float16
  else if diopi_dtype_int64 ∈ dtypeAndTensorPtrs ∨ diopi_dtype_int32 ∈ dtypeAndTensorPtrs ∨
      diopi_dtype_uint64 ∈ dtypeAndTensorPtrs ∨ diopi_dtype_uint32 ∈ dtypeAndTensorPtrs then
    if diopi_dtype_int32 ∉ opSupportedDtype then choiceDtype opSupportedDtype
    else Except.ok diopi_dtype_int32
  else if diopi_dtype_int16 ∈ dtypeAndTensorPtrs ∨ diopi_dtype_uint16 ∈ dtypeAndTensorPtrs then
    if diopi_dtype_int16 ∉ opSupportedDtype then choiceDtype opSupportedDtype
    else Except.ok diopi_dtype_int16
  else if diopi_dtype_int8 ∈ dtypeAndTensorPtrs ∨ diopi_dtype_uint8 ∈ dtypeAndTensorPtrs then
    if diopi_dtype_int8 ∉ opSupportedDtype then choiceDtype opSupportedDtype
    else Except.ok diopi_dtype_int8
  else if diopi_dtype_bool ∈ dtypeAndTensorPtrs then
    if diopi_dtype_bool ∉ opSupportedDtype then choiceDtype opSupportedDtype
    else Except.ok diopi_dtype_bool
  else Except.error diopiDtypeNotSupported

/-- Lines 174-176 of `autoCastTensorType`: the loop
`for (pTensor : pTensors) DIOPI_CALL(dataTypeCast(ctx, *pTensor, targetType))`.  Each call works
on the tensor variable at address `pTensor` and leaves its result there. -/
def castLoop (tbl : CastTable) (code : diopiDtype_t → Nat) (hw : CastOracle) (fuel : Nat)
    (targetType : diopiDtype_t) :
    Runtime → (Nat → DiopiTensor) → List Nat →
      Option (diopiError_t × Runtime × (Nat → DiopiTensor))
  | ctx, mem, [] => some (diopiSuccess, ctx, mem)
  | ctx, mem, pTensor :: rest =>
    match dataTypeCast tbl code hw fuel ctx (mem pTensor) targetType with
    | none => none
    | some (ret, ctx1, t) =>
      if diopiSuccess ≠ ret then some (ret, ctx1, Function.update mem pTensor t)
      else castLoop tbl code hw fuel targetType ctx1 (Function.update mem pTensor t) rest

/-- The function `autoCastTensorType(ctx, pTensors, opSupportedDtype)`.  The result carries the
status, the runtime and the caller's tensor variables on return. -/
def autoCastTensorType (tbl : CastTable) (code : diopiDtype_t → Nat) (hw : CastOracle)
    (fuel : Nat) (ctx : Runtime) (mem : Nat → DiopiTensor) (pTensors : List Nat)
    (opSupportedDtype : Finset diopiDtype_t) :
    Option (diopiError_t × Runtime × (Nat → DiopiTensor)) :=
  match selectTargetType (collectDtypes mem pTensors) opSupportedDtype with
  | Except.error ret => some (ret, ctx, mem)
  | Except.ok targetType => castLoop tbl code hw fuel targetType ctx mem pTensors

deriving instance DecidableEq for Except

/-! ## Specification-side definitions -/

/-- Specification, section 3: the Special-Pair Table, as the set of its eight
(source, destination) pairs. -/
def specialPairs : List (diopiDtype_t × diopiDtype_t) :=
  [(diopi_dtype_bool, diopi_dtype_int64), (diopi_dtype_int16, diopi_dtype_int64),
   (diopi_dtype_int8, diopi_dtype_int64), (diopi_dtype_uint8, diopi_dtype_bool),
   (diopi_dtype_int16, diopi_dtype_bool), (diopi_dtype_int64, diopi_dtype_bool),
   (diopi_dtype_int8, diopi_dtype_bool), (diopi_dtype_int64, diopi_dtype_int8)]

/-- The op code "int32→D" for the three destinations of the Special-Pair Table. -/
def int32To : diopiDtype_t → Option cnnlCastDataType_t
  | diopi_dtype_int64 => some CNNL_CAST_INT32_TO_INT64
  | diopi_dtype_bool => some CNNL_CAST_INT32_TO_BOOL
  | diopi_dtype_int8 => some CNNL_CAST_INT32_TO_INT8
  | _ => none

/-- The enumerators of `diopiDtype_t` have pairwise distinct values in their low 32 bits, the
part `_MAKE_KEY` keeps. -/
def DistinctCodes (code : diopiDtype_t → Nat) : Prop :=
  ∀ a b : diopiDtype_t, code a % 2 ^ 32 = code b % 2 ^ 32 → a = b

/-- A numbering of the enumerators (declaration order), used for concrete runs. -/
def enumValue : diopiDtype_t → Nat
  | diopi_dtype_int8 => 0
  | diopi_dtype_uint8 => 1
  | diopi_dtype_int16 => 2
  | diopi_dtype_uint16 => 3
  | diopi_dtype_int32 => 4
  | diopi_dtype_uint32 => 5
  | diopi_dtype_int64 => 6
  | diopi_dtype_uint64 => 7
  | diopi_dtype_float16 => 8
  | diopi_dtype_float32 => 9
  | diopi_dtype_float64 => 10
  | diopi_dtype_bool => 11


/-- The element types of the operands, in list order. -/
def operandTypes (mem : Nat → DiopiTensor) (pTensors : List Nat) : List diopiDtype_t :=
  pTensors.map (fun pTensor => (mem pTensor).dtype)

/-- Specification, section 4.3 step 2: the candidate target, by the ordered category tests
(first match wins); `none` when no recognised type is present. -/
def candidateTarget (types : List diopiDtype_t) : Option diopiDtype_t :=
  if diopi_dtype_float64 ∈ types ∨ diopi_dtype_float32 ∈ types then some diopi_dtype_float32
  else if diopi_dtype_float16 ∈ types then some diopi_dtype_float16
  else if diopi_dtype_int64 ∈ types ∨ diopi_dtype_int32 ∈ types ∨ diopi_dtype_uint64 ∈ types ∨
      diopi_dtype_uint32 ∈ types then some diopi_dtype_int32
  else if diopi_dtype_int16 ∈ types ∨ diopi_dtype_uint16 ∈ types then some diopi_dtype_int16
  else if diopi_dtype_int8 ∈ types ∨ diopi_dtype_uint8 ∈ types then some diopi_dtype_int8
  else if diopi_dtype_bool ∈ types then some diopi_dtype_bool
  else none

/-- Specification, section 3: the fixed precedence order, highest first. -/
def precedenceOrder : List diopiDtype_t :=
  [diopi_dtype_float32, diopi_dtype_float16, diopi_dtype_int32, diopi_dtype_int16,
   diopi_dtype_int8, diopi_dtype_bool]

/-- Specification, section 4.3 step 4: the first member of the precedence order that is in
`supportedTypes`. -/
def firstSupported (supportedTypes : Finset diopiDtype_t) : Option diopiDtype_t :=
  precedenceOrder.find? (fun t => decide (t ∈ supportedTypes))


/-! ## Data for concrete runs -/

/-- A direct-cast table with four entries, used for concrete runs. -/
def sampleTable : CastTable := fun s d =>
  if s = diopi_dtype_bool ∧ d = diopi_dtype_int32 then some (other 1)
  else if s = diopi_dtype_int32 ∧ d = diopi_dtype_float32 then some (other 2)
  else if s = diopi_dtype_float16 ∧ d = diopi_dtype_float32 then some (other 3)
  else if s = diopi_dtype_int64 ∧ d = diopi_dtype_int32 then some (other 4)
  else none

/-- A kernel library whose cast calls all pass their status check. -/
def noFailure : CastOracle := fun _ _ => none

/-- A runtime in which nothing has been requested or cast yet. -/
def emptyRuntime : Runtime := Runtime.mk 0 [] []

/-- Caller-side tensors for concrete runs (handles 100 and up). -/
def boolTensor : DiopiTensor := DiopiTensor.mk 100 diopi_dtype_bool [2, 3]
def int64Tensor : DiopiTensor := DiopiTensor.mk 101 diopi_dtype_int64 [2, 3]
def int32Tensor : DiopiTensor := DiopiTensor.mk 102 diopi_dtype_int32 [2, 3]
def float32Tensor : DiopiTensor := DiopiTensor.mk 103 diopi_dtype_float32 [2, 3]
def float32Vector : DiopiTensor := DiopiTensor.mk 104 diopi_dtype_float32 [6]
def uint16Tensor : DiopiTensor := DiopiTensor.mk 105 diopi_dtype_uint16 [2, 3]

/-- Tensor variables of a caller, for concrete runs: address 0 holds an int64 tensor, address 1
a bool tensor, address 2 an int32 tensor, every other address a float32 tensor. -/
def sampleMem : Nat → DiopiTensor := fun a =>
  if a = 0 then int64Tensor else if a = 1 then boolTensor
  else if a = 2 then int32Tensor else float32Tensor

/-! ## Layout synthesis (`diopi_helper.hpp`) -/

/-- The enumeration `MemoryFormat`. -/
inductive MemoryFormat
  | Contiguous
  | ChannelsLast
  | ChannelsLast3d
  | Preserve
  deriving DecidableEq, Repr

/-- The value an `int64_t` holds after an arithmetic result `x`: reduction to the
two's-complement range from `-2 ^ 63` up to `2 ^ 63 - 1`. -/
def wrapInt64 (x : Int) : Int := (x + 2 ^ 63) % 2 ^ 64 - 2 ^ 63

/-- The loop body both loops of `contiguous` share, at index `k`:
`strides[k] = stride; if (shapes[k] == 0) continue; if (shapes[k] == -1) stride = -1;
if (stride != -1) stride *= shapes[k];`.
The state is the vector `strides` and the variable `stride`.  An index outside the vector or
outside the shape array is `none`. -/
def strideStep (shapes : List Int) (k : Nat) : List Int × Int → Option (List Int × Int)
  | (strides, stride) =>
    if k < strides.length then
      match shapes[k]? with
      | none => none
      | some x =>
        if x = 0 then some (strides.set k stride, stride)
        else
          match (if x = -1 then -1 else stride) with
          | stride1 =>
            if stride1 ≠ -1 then some (strides.set k stride, wrapInt64 (stride1 * x))
            else some (strides.set k stride, stride1)
    else none

/-- The loop `for (size_t i = dim; i > 0; --i)` of the `Contiguous` branch; the body runs at
index `i - 1`. -/
def contiguousLoop (shapes : List Int) : Nat → List Int × Int → Option (List Int × Int)
  | 0, st => some st
  | i + 1, st =>
    match strideStep shapes i st with
    | none => none
    | some st1 => contiguousLoop shapes i st1

/-- The loop `for (auto k : {1, 3, 2, 0})` of the `ChannelsLast` branch, over the list of
indices it is given. -/
def channelsLastLoop (shapes : List Int) : List Nat → List Int × Int → Option (List Int × Int)
  | [], st => some st
  | k :: ks, st =>
    match strideStep shapes k st with
    | none => none
    | some st1 => channelsLastLoop shapes ks st1

/-- Lines 138-156 of `contiguous`: the vector `strides` after the branch on `format`, starting
from `std::vector<int64_t> strides(dim)` (all zero) and `stride = 1`. -/
def contiguousStrides (shapes : List Int) (format : MemoryFormat) : Option (List Int) :=
  match format with
  | MemoryFormat.Contiguous =>
    (contiguousLoop shapes shapes.length (List.replicate shapes.length 0, 1)).map Prod.fst
  | MemoryFormat.ChannelsLast =>
    (channelsLastLoop shapes [1, 3, 2, 0] (List.replicate shapes.length 0, 1)).map Prod.fst
  | _ => some (List.replicate shapes.length 0)

/-- The member function `DiopiTensor::contiguous(ctx, format)`: the strides are synthesized and
a tensor of the same shape and element type is requested with them. -/
def DiopiTensor.contiguous (self : DiopiTensor) (ctx : Runtime) (format : MemoryFormat) :
    Option (Runtime × DiopiTensor) :=
  match contiguousStrides self.shape format with
  | none => none
  | some strides => some (diopiRequireTensor ctx self.shape (some strides) self.dtype)

/-- The extent a dimension contributes to the running product: zero extents are skipped. -/
def skipZero (x : Int) : Int := if x = 0 then 1 else x

/-- The update of the variable `stride` by one loop body, as a function of the old value `s`
and the extent `x`. -/
def nextStride (s x : Int) : Int :=
  if x = 0 then s else if x = -1 then -1 else if s = -1 then -1 else wrapInt64 (s * x)

/-- More caller-side tensors for concrete runs. -/
def int16Tensor : DiopiTensor := DiopiTensor.mk 106 diopi_dtype_int16 [2, 3]

/-- A kernel library whose first cast call fails its status check and whose later calls
pass. -/
def failFirstCast : CastOracle := fun ctx _ =>
  if ctx.casts = [] then some diopiErrorOccurred else none


/-! ## Keys -/

theorem MAKE_KEY_eq (a b : Nat) : MAKE_KEY a b = 2 ^ 32 * (a % 2 ^ 32) + b % 2 ^ 32 := by
  unfold MAKE_KEY
  have h1 : ∀ x : Nat, (x % 2 ^ 64) &&& 0xFFFFFFFF = x % 2 ^ 32 := by
    intro x
    have : (0xFFFFFFFF : Nat) = 2 ^ 32 - 1 := by norm_num
    rw [this, Nat.and_pow_two_sub_one_eq_mod]
    omega
  rw [h1, h1, Nat.shiftLeft_eq]
  have h2 : a % 2 ^ 32 * 2 ^ 32 % 2 ^ 64 = 2 ^ 32 * (a % 2 ^ 32) := by omega
  rw [h2]
  exact (Nat.mul_add_lt_is_or (by omega) _).symm

theorem MAKE_KEY_inj {a b c d : Nat} (h : MAKE_KEY a b = MAKE_KEY c d) :
    a % 2 ^ 32 = c % 2 ^ 32 ∧ b % 2 ^ 32 = d % 2 ^ 32 := by
  rw [MAKE_KEY_eq, MAKE_KEY_eq] at h
  omega

theorem key_eq_iff {code : diopiDtype_t → Nat} (hcode : DistinctCodes code)
    (s d x y : diopiDtype_t) :
    MAKE_KEY (code s) (code d) = MAKE_KEY (code x) (code y) ↔ s = x ∧ d = y := by
  constructor
  · intro h
    have h1 := MAKE_KEY_inj h
    exact ⟨hcode _ _ h1.1, hcode _ _ h1.2⟩
  · rintro ⟨rfl, rfl⟩
    rfl

theorem enumValue_distinct : DistinctCodes enumValue := by
  intro a b
  cases a <;> cases b <;> simp [enumValue]

/-- With distinct enumerator values the `switch` selects a `CAST_TYPE_THROUGH_INT32` case
exactly on the eight pairs of the Special-Pair Table, with the op code "int32→D". -/
theorem switchKey_spec {code : diopiDtype_t → Nat} (hcode : DistinctCodes code)
    (s d : diopiDtype_t) :
    switchKey code (MAKE_KEY (code s) (code d)) =
      if (s, d) ∈ specialPairs then int32To d else none := by
  simp only [switchKey, BoolInt64, Int16Int64, Int8Int64, Uint8Bool, Int16Bool, Int64Bool,
    Int8Bool, Int64Int8, key_eq_iff hcode]
  cases s <;> cases d <;> simp [specialPairs, int32To]

theorem switchKey_int32 {code : diopiDtype_t → Nat} (hcode : DistinctCodes code)
    (s : diopiDtype_t) :
    switchKey code (MAKE_KEY (code s) (code diopi_dtype_int32)) = none := by
  rw [switchKey_spec hcode]
  cases s <;> simp [specialPairs]

/-! ## Single-tensor casts -/

theorem dataTypeCastInternal_direct (tbl : CastTable) (code : diopiDtype_t → Nat)
    (hw : CastOracle) (n : Nat) (ctx : Runtime) (src dest : DiopiTensor)
    (cast_type : cnnlCastDataType_t) (h : tbl src.dtype dest.dtype = some cast_type) :
    dataTypeCastInternal tbl code hw (n + 1) ctx src dest =
      some (cnnlCastDataType hw ctx src cast_type dest) := by
  simp [dataTypeCastInternal, h]

theorem dataTypeCastInternal_default (tbl : CastTable) (code : diopiDtype_t → Nat)
    (hw : CastOracle) (n : Nat) (ctx : Runtime) (src dest : DiopiTensor)
    (h : tbl src.dtype dest.dtype = none)
    (hk : switchKey code (MAKE_KEY (code src.dtype) (code dest.dtype)) = none) :
    dataTypeCastInternal tbl code hw (n + 1) ctx src dest =
      some (diopiDtypeNotSupported, ctx) := by
  simp [dataTypeCastInternal, h, hk]

theorem dataTypeCast_same (tbl : CastTable) (code : diopiDtype_t → Nat) (hw : CastOracle)
    (n : Nat) (ctx : Runtime) (src : DiopiTensor) :
    dataTypeCast tbl code hw (n + 1) ctx src src.dtype = some (diopiSuccess, ctx, src) := by
  simp [dataTypeCast]

theorem cnnlCastDataType_casts (hw : CastOracle) (ctx : Runtime) (src dest : DiopiTensor)
    (cast_type : cnnlCastDataType_t) :
    (cnnlCastDataType hw ctx src cast_type dest).2 =
      Runtime.mk ctx.nextHandle ctx.required
        (ctx.casts ++ [CnnlCastCall.mk src cast_type dest]) := by
  simp only [cnnlCastDataType]
  split <;> rfl

/-- The first hop: a cast to int32 needs two units of fuel, requests one int32 tensor of the
source's shape when the source is not int32 already, and returns a tensor of the same shape. -/
theorem dataTypeCast_int32 {code : diopiDtype_t → Nat} (hcode : DistinctCodes code)
    (tbl : CastTable) (hw : CastOracle) (n : Nat) (ctx : Runtime) (src : DiopiTensor)
    (hs : src.dtype ≠ diopi_dtype_int32) :
    ∃ ret ctx1 src1,
      dataTypeCast tbl code hw (n + 2) ctx src diopi_dtype_int32 = some (ret, ctx1, src1) ∧
      ctx1.required = ctx.required ++ [RequireCall.mk src.shape none diopi_dtype_int32] ∧
      ctx1.nextHandle = ctx.nextHandle + 1 ∧
      (∃ l, ctx1.casts = ctx.casts ++ l ∧ l.length ≤ 1) := by
  have hk := switchKey_int32 hcode src.dtype
  cases htb : tbl src.dtype diopi_dtype_int32 with
  | none =>
    refine ⟨diopiDtypeNotSupported, (requiresTensor ctx src.shape diopi_dtype_int32).1, src,
      ?_, rfl, rfl, [], by simp [requiresTensor, diopiRequireTensor], by simp⟩
    simp [dataTypeCast, hs, requiresTensor, diopiRequireTensor, dataTypeCastInternal, htb, hk]
  | some ct =>
    have hc := cnnlCastDataType_casts hw (requiresTensor ctx src.shape diopi_dtype_int32).1 src
      (requiresTensor ctx src.shape diopi_dtype_int32).2 ct
    rcases hr : cnnlCastDataType hw (requiresTensor ctx src.shape diopi_dtype_int32).1 src ct
      (requiresTensor ctx src.shape diopi_dtype_int32).2 with ⟨ret, ctx2⟩
    rw [hr] at hc
    simp only at hc
    by_cases hret : diopiSuccess = ret
    · refine ⟨diopiSuccess, ctx2, (requiresTensor ctx src.shape diopi_dtype_int32).2, ?_, ?_, ?_,
        [CnnlCastCall.mk src ct (requiresTensor ctx src.shape diopi_dtype_int32).2], ?_, by simp⟩
      · simp only [dataTypeCast, hs, if_false, dataTypeCastInternal]
        simp [requiresTensor, diopiRequireTensor] at hr ⊢
        simp [htb, hr, hret]
      · rw [hc]; rfl
      · rw [hc]; rfl
      · rw [hc]; rfl
    · refine ⟨ret, ctx2, src, ?_, ?_, ?_,
        [CnnlCastCall.mk src ct (requiresTensor ctx src.shape diopi_dtype_int32).2], ?_, by simp⟩
      · simp only [dataTypeCast, hs, if_false, dataTypeCastInternal]
        simp [requiresTensor, diopiRequireTensor] at hr ⊢
        simp [htb, hr, hret]
      · rw [hc]; rfl
      · rw [hc]; rfl
      · rw [hc]; rfl

theorem specialPairs_dest {s d : diopiDtype_t} (h : (s, d) ∈ specialPairs) :
    s ≠ diopi_dtype_int32 ∧
      ((d = diopi_dtype_int64 ∧ int32To d = some CNNL_CAST_INT32_TO_INT64) ∨
       (d = diopi_dtype_bool ∧ int32To d = some CNNL_CAST_INT32_TO_BOOL) ∨
       (d = diopi_dtype_int8 ∧ int32To d = some CNNL_CAST_INT32_TO_INT8)) := by
  revert h
  cases s <;> cases d <;> simp [specialPairs, int32To]

/-- The three ways through `dataTypeCastInternal`, in closed form. -/
theorem dataTypeCastInternal_cases {code : diopiDtype_t → Nat} (hcode : DistinctCodes code)
    (tbl : CastTable) (hw : CastOracle) (n : Nat) (ctx : Runtime) (src dest : DiopiTensor) :
    (∃ ct, tbl src.dtype dest.dtype = some ct ∧
        dataTypeCastInternal tbl code hw (n + 3) ctx src dest =
          some (cnnlCastDataType hw ctx src ct dest)) ∨
    (tbl src.dtype dest.dtype = none ∧ (src.dtype, dest.dtype) ∈ specialPairs ∧
        ∃ ret1 ctx1 src1 ct, int32To dest.dtype = some ct ∧
          dataTypeCast tbl code hw (n + 2) ctx src diopi_dtype_int32 = some (ret1, ctx1, src1) ∧
          ctx1.required = ctx.required ++ [RequireCall.mk src.shape none diopi_dtype_int32] ∧
          ctx1.nextHandle = ctx.nextHandle + 1 ∧
          (∃ l, ctx1.casts = ctx.casts ++ l ∧ l.length ≤ 1) ∧
          dataTypeCastInternal tbl code hw (n + 3) ctx src dest =
            some (cnnlCastDataType hw ctx1 src1 ct dest)) ∨
    (tbl src.dtype dest.dtype = none ∧ (src.dtype, dest.dtype) ∉ specialPairs ∧
        dataTypeCastInternal tbl code hw (n + 3) ctx src dest =
          some (diopiDtypeNotSupported, ctx)) := by
  cases htb : tbl src.dtype dest.dtype with
  | some ct =>
    exact Or.inl ⟨ct, rfl, dataTypeCastInternal_direct tbl code hw (n + 2) ctx src dest ct htb⟩
  | none =>
    have hk := switchKey_spec hcode src.dtype dest.dtype
    by_cases hsp : (src.dtype, dest.dtype) ∈ specialPairs
    · have hd := specialPairs_dest hsp
      obtain ⟨ret1, ctx1, src1, h1, h2, h3, h4⟩ :=
        dataTypeCast_int32 hcode tbl hw n ctx src hd.1
      have hct : ∃ ct, int32To dest.dtype = some ct := by
        rcases hd.2 with h | h | h
        · exact ⟨_, h.2⟩
        · exact ⟨_, h.2⟩
        · exact ⟨_, h.2⟩
      obtain ⟨ct, hct⟩ := hct
      refine Or.inr (Or.inl ⟨rfl, hsp, ret1, ctx1, src1, ct, hct, h1, h2, h3, h4, ?_⟩)
      rw [if_pos hsp, hct] at hk
      simp [dataTypeCastInternal, htb, hk, h1]
    · rw [if_neg hsp] at hk
      exact Or.inr (Or.inr ⟨rfl, hsp,
        dataTypeCastInternal_default tbl code hw (n + 2) ctx src dest htb hk⟩)

/-- With three units of fuel `dataTypeCastInternal` returns, and it only ever appends to the
request log. -/
theorem dataTypeCastInternal_total {code : diopiDtype_t → Nat} (hcode : DistinctCodes code)
    (tbl : CastTable) (hw : CastOracle) (n : Nat) (ctx : Runtime) (src dest : DiopiTensor) :
    ∃ ret ctx', dataTypeCastInternal tbl code hw (n + 3) ctx src dest = some (ret, ctx') ∧
      ∃ l, ctx'.required = ctx.required ++ l := by
  rcases dataTypeCastInternal_cases hcode tbl hw n ctx src dest with
    ⟨ct, _, h⟩ | ⟨_, _, ret1, ctx1, src1, ct, _, _, hreq, _, _, h⟩ | ⟨_, _, h⟩
  · refine ⟨(cnnlCastDataType hw ctx src ct dest).1, (cnnlCastDataType hw ctx src ct dest).2,
      h, [], ?_⟩
    rw [cnnlCastDataType_casts]; simp
  · refine ⟨(cnnlCastDataType hw ctx1 src1 ct dest).1, (cnnlCastDataType hw ctx1 src1 ct dest).2,
      h, [RequireCall.mk src.shape none diopi_dtype_int32], ?_⟩
    rw [cnnlCastDataType_casts]; simp [hreq]
  · exact ⟨_, _, h, [], by simp⟩

/-- The two ways through `dataTypeCast` when the types differ, in closed form. -/
theorem dataTypeCast_cases {code : diopiDtype_t → Nat} (hcode : DistinctCodes code)
    (tbl : CastTable) (hw : CastOracle) (n : Nat) (ctx : Runtime) (src : DiopiTensor)
    (destDtype : diopiDtype_t) (hne : src.dtype ≠ destDtype) :
    ∃ ret ctx2,
      dataTypeCastInternal tbl code hw (n + 3) (requiresTensor ctx src.shape destDtype).1 src
        (requiresTensor ctx src.shape destDtype).2 = some (ret, ctx2) ∧
      (∃ l, ctx2.required =
        ctx.required ++ RequireCall.mk src.shape none destDtype :: l) ∧
      dataTypeCast tbl code hw (n + 4) ctx src destDtype =
        some (if diopiSuccess ≠ ret then (ret, ctx2, src)
              else (diopiSuccess, ctx2, (requiresTensor ctx src.shape destDtype).2)) := by
  obtain ⟨ret, ctx2, h, l, hl⟩ := dataTypeCastInternal_total hcode tbl hw n
    (requiresTensor ctx src.shape destDtype).1 src (requiresTensor ctx src.shape destDtype).2
  refine ⟨ret, ctx2, h, ⟨l, ?_⟩, ?_⟩
  · rw [hl]; simp [requiresTensor, diopiRequireTensor]
  · simp only [dataTypeCast, hne, if_false, h]
    split <;> rfl

/-! ## Claims on path resolution and single-tensor casts -/

/-- C5: path resolution in `dataTypeCastInternal` goes on to a hardware cast into `dest` exactly
when the pair (source type, destination type) is in the Direct-Cast Table or is one of the eight
special pairs; for a pair absent from both it returns `diopiDtypeNotSupported` and leaves the
runtime as it was (no hardware cast, no request). -/
theorem C5_resolution_iff_direct_or_special {code : diopiDtype_t → Nat}
    (hcode : DistinctCodes code) (tbl : CastTable) (hw : CastOracle) (n : Nat) (ctx : Runtime)
    (src dest : DiopiTensor) :
    ∃ ret ctx', dataTypeCastInternal tbl code hw (n + 3) ctx src dest = some (ret, ctx') ∧
      ((∃ l input cast_type,
          ctx'.casts = ctx.casts ++ l ++ [CnnlCastCall.mk input cast_type dest]) ↔
        ((tbl src.dtype dest.dtype).isSome ∨ (src.dtype, dest.dtype) ∈ specialPairs)) ∧
      (¬ ((tbl src.dtype dest.dtype).isSome ∨ (src.dtype, dest.dtype) ∈ specialPairs) →
        ret = diopiDtypeNotSupported ∧ ctx' = ctx) := by
  rcases dataTypeCastInternal_cases hcode tbl hw n ctx src dest with
    ⟨ct, htb, h⟩ | ⟨htb, hsp, ret1, ctx1, src1, ct, _, _, _, _, ⟨l, hl, _⟩, h⟩ | ⟨htb, hsp, h⟩
  · refine ⟨(cnnlCastDataType hw ctx src ct dest).1, (cnnlCastDataType hw ctx src ct dest).2, h,
      ⟨fun _ => Or.inl (by simp [htb]), fun _ => ⟨[], src, ct, ?_⟩⟩, ?_⟩
    · rw [cnnlCastDataType_casts]; simp
    · intro hno; exact absurd (Or.inl (by simp [htb])) hno
  · refine ⟨(cnnlCastDataType hw ctx1 src1 ct dest).1, (cnnlCastDataType hw ctx1 src1 ct dest).2,
      h, ⟨fun _ => Or.inr hsp, fun _ => ⟨l, src1, ct, ?_⟩⟩, ?_⟩
    · rw [cnnlCastDataType_casts]; simp [hl]
    · intro hno; exact absurd (Or.inr hsp) hno
  · refine ⟨_, _, h, ⟨?_, ?_⟩, fun _ => ⟨rfl, rfl⟩⟩
    · rintro ⟨l, input, ct, hl⟩
      have := congrArg List.length hl
      simp at this
    · rintro (h1 | h1)
      · simp [htb] at h1
      · exact absurd h1 hsp

/-- C5 at a concrete input: int64 → bool (special, not in the sample table) resolves. -/
theorem C5_resolution_witness :
    DistinctCodes enumValue ∧
    ∃ ret ctx', dataTypeCastInternal sampleTable enumValue noFailure 3 emptyRuntime int64Tensor
        boolTensor = some (ret, ctx') ∧
      ((∃ l input cast_type,
          ctx'.casts = emptyRuntime.casts ++ l ++ [CnnlCastCall.mk input cast_type boolTensor]) ↔
        ((sampleTable int64Tensor.dtype boolTensor.dtype).isSome ∨
          (int64Tensor.dtype, boolTensor.dtype) ∈ specialPairs)) ∧
      (¬ ((sampleTable int64Tensor.dtype boolTensor.dtype).isSome ∨
          (int64Tensor.dtype, boolTensor.dtype) ∈ specialPairs) →
        ret = diopiDtypeNotSupported ∧ ctx' = emptyRuntime) :=
  ⟨enumValue_distinct,
    C5_resolution_iff_direct_or_special enumValue_distinct sampleTable noFailure 0 emptyRuntime
      int64Tensor boolTensor⟩

/-- C6: a special pair that is not in the Direct-Cast Table takes two hops: the nested
`dataTypeCast(ctx, src, diopi_dtype_int32)` runs first (requesting an int32 tensor of the
source's shape) and the hardware cast into `dest` uses the op code int32→D for the destination
type D; a pair in the Direct-Cast Table takes the single direct hardware cast with the table's
op code and nothing else, special or not; a pair outside both gets no hop at all. -/
theorem C6_special_pair_two_hop {code : diopiDtype_t → Nat} (hcode : DistinctCodes code)
    (tbl : CastTable) (hw : CastOracle) (n : Nat) (ctx : Runtime) (src dest : DiopiTensor) :
    ((src.dtype, dest.dtype) ∈ specialPairs → tbl src.dtype dest.dtype = none →
      ∃ ret1 ctx1 src1 cast_type,
        dataTypeCast tbl code hw (n + 2) ctx src diopi_dtype_int32 = some (ret1, ctx1, src1) ∧
        ctx1.required = ctx.required ++ [RequireCall.mk src.shape none diopi_dtype_int32] ∧
        ((dest.dtype = diopi_dtype_int64 ∧ cast_type = CNNL_CAST_INT32_TO_INT64) ∨
         (dest.dtype = diopi_dtype_bool ∧ cast_type = CNNL_CAST_INT32_TO_BOOL) ∨
         (dest.dtype = diopi_dtype_int8 ∧ cast_type = CNNL_CAST_INT32_TO_INT8)) ∧
        dataTypeCastInternal tbl code hw (n + 3) ctx src dest =
          some (cnnlCastDataType hw ctx1 src1 cast_type dest)) ∧
    (∀ cast_type, tbl src.dtype dest.dtype = some cast_type →
      dataTypeCastInternal tbl code hw (n + 3) ctx src dest =
        some (cnnlCastDataType hw ctx src cast_type dest)) ∧
    ((src.dtype, dest.dtype) ∉ specialPairs → tbl src.dtype dest.dtype = none →
      dataTypeCastInternal tbl code hw (n + 3) ctx src dest =
        some (diopiDtypeNotSupported, ctx)) := by
  rcases dataTypeCastInternal_cases hcode tbl hw n ctx src dest with
    ⟨ct, htb, h⟩ | ⟨htb, hsp, ret1, ctx1, src1, ct, hct, h1, hreq, _, _, h⟩ | ⟨htb, hsp, h⟩
  · refine ⟨fun _ hno => ?_, fun ct2 h2 => ?_, fun _ hno => ?_⟩
    · rw [htb] at hno; cases hno
    · rw [htb] at h2; cases h2; exact h
    · rw [htb] at hno; cases hno
  · refine ⟨fun _ _ => ⟨ret1, ctx1, src1, ct, h1, hreq, ?_, h⟩, fun ct2 h2 => ?_,
      fun hno _ => absurd hsp hno⟩
    · rcases (specialPairs_dest hsp).2 with hd | hd | hd
      · exact Or.inl ⟨hd.1, by rw [hd.2] at hct; cases hct; rfl⟩
      · exact Or.inr (Or.inl ⟨hd.1, by rw [hd.2] at hct; cases hct; rfl⟩)
      · exact Or.inr (Or.inr ⟨hd.1, by rw [hd.2] at hct; cases hct; rfl⟩)
    · rw [htb] at h2; cases h2
  · refine ⟨fun hyes _ => absurd hyes hsp, fun ct2 h2 => ?_, fun _ _ => h⟩
    rw [htb] at h2; cases h2

/-- C6 at a concrete input: bool → int64 with the sample table, whose first hop
bool → int32 is a direct cast; the run issues the two hardware casts in order. -/
theorem C6_special_pair_witness :
    DistinctCodes enumValue ∧
    (boolTensor.dtype, int64Tensor.dtype) ∈ specialPairs ∧
    sampleTable boolTensor.dtype int64Tensor.dtype = none ∧
    dataTypeCastInternal sampleTable enumValue noFailure 3 emptyRuntime boolTensor int64Tensor =
      some (diopiSuccess, Runtime.mk 1 [RequireCall.mk [2, 3] none diopi_dtype_int32]
        [CnnlCastCall.mk boolTensor (other 1) (DiopiTensor.mk 0 diopi_dtype_int32 [2, 3]),
         CnnlCastCall.mk (DiopiTensor.mk 0 diopi_dtype_int32 [2, 3]) CNNL_CAST_INT32_TO_INT64
           int64Tensor]) ∧
    ∃ ret1 ctx1 src1 cast_type,
      dataTypeCast sampleTable enumValue noFailure 2 emptyRuntime boolTensor diopi_dtype_int32 =
        some (ret1, ctx1, src1) ∧
      ctx1.required =
        emptyRuntime.required ++ [RequireCall.mk boolTensor.shape none diopi_dtype_int32] ∧
      ((int64Tensor.dtype = diopi_dtype_int64 ∧ cast_type = CNNL_CAST_INT32_TO_INT64) ∨
       (int64Tensor.dtype = diopi_dtype_bool ∧ cast_type = CNNL_CAST_INT32_TO_BOOL) ∨
       (int64Tensor.dtype = diopi_dtype_int8 ∧ cast_type = CNNL_CAST_INT32_TO_INT8)) ∧
      dataTypeCastInternal sampleTable enumValue noFailure 3 emptyRuntime boolTensor
        int64Tensor = some (cnnlCastDataType noFailure ctx1 src1 cast_type int64Tensor) :=
  ⟨enumValue_distinct, by decide, by decide, by decide,
    (C6_special_pair_two_hop enumValue_distinct sampleTable noFailure 0 emptyRuntime
      boolTensor int64Tensor).1 (by decide) (by decide)⟩

/-- C7: casting a tensor to the element type it already has returns `diopiSuccess` with the
tensor (handle included) and the runtime exactly as they were: nothing is requested from the
allocator and no hardware cast is issued. -/
theorem C7_cast_to_own_type_is_noop (tbl : CastTable) (code : diopiDtype_t → Nat)
    (hw : CastOracle) (n : Nat) (ctx : Runtime) (src : DiopiTensor) :
    dataTypeCast tbl code hw (n + 1) ctx src src.dtype = some (diopiSuccess, ctx, src) :=
  dataTypeCast_same tbl code hw n ctx src

/-- C8: for a desired type different from the tensor's type, `dataTypeCast` returns; when it
returns `diopiSuccess` the caller's reference is the tensor the allocator handed out for the
request (shape of the original tensor, desired type) made in this call; when the pair is in
neither table the status is `diopiDtypeNotSupported` and the caller's reference is the tensor
it was. -/
theorem C8_cast_to_rebinds_or_keeps {code : diopiDtype_t → Nat} (hcode : DistinctCodes code)
    (tbl : CastTable) (hw : CastOracle) (n : Nat) (ctx : Runtime) (src : DiopiTensor)
    (destDtype : diopiDtype_t) (hne : src.dtype ≠ destDtype) :
    ∃ ret ctx' src',
      dataTypeCast tbl code hw (n + 4) ctx src destDtype = some (ret, ctx', src') ∧
      (ret = diopiSuccess →
        src' = DiopiTensor.mk ctx.nextHandle destDtype src.shape ∧
        src'.shape = src.shape ∧ src'.dtype = destDtype ∧
        ∃ l, ctx'.required = ctx.required ++ RequireCall.mk src.shape none destDtype :: l) ∧
      (tbl src.dtype destDtype = none → (src.dtype, destDtype) ∉ specialPairs →
        ret = diopiDtypeNotSupported ∧ src' = src) := by
  obtain ⟨ret, ctx2, hint, hreq, h⟩ := dataTypeCast_cases hcode tbl hw n ctx src destDtype hne
  by_cases hret : diopiSuccess = ret
  · subst hret
    refine ⟨diopiSuccess, ctx2, (requiresTensor ctx src.shape destDtype).2, ?_,
      fun _ => ⟨rfl, rfl, rfl, hreq⟩, fun htb hsp => ?_⟩
    · rw [h]; simp
    · rcases dataTypeCastInternal_cases hcode tbl hw n (requiresTensor ctx src.shape destDtype).1
        src (requiresTensor ctx src.shape destDtype).2 with
        ⟨ct, h1, _⟩ | ⟨_, h1, _⟩ | ⟨_, _, h1⟩
      · rw [show (requiresTensor ctx src.shape destDtype).2.dtype = destDtype from rfl, htb] at h1
        cases h1
      · exact absurd h1 hsp
      · rw [h1] at hint; cases hint
  · refine ⟨ret, ctx2, src, ?_, fun h0 => absurd h0.symm hret, fun htb hsp => ⟨?_, rfl⟩⟩
    · rw [h]; simp [hret]
    · rcases dataTypeCastInternal_cases hcode tbl hw n (requiresTensor ctx src.shape destDtype).1
        src (requiresTensor ctx src.shape destDtype).2 with
        ⟨ct, h1, _⟩ | ⟨_, h1, _⟩ | ⟨_, _, h1⟩
      · rw [show (requiresTensor ctx src.shape destDtype).2.dtype = destDtype from rfl, htb] at h1
        cases h1
      · exact absurd h1 hsp
      · rw [h1] at hint; cases hint; rfl

/-- C8 at a concrete input: int32 → float32 is a direct cast of the sample table. -/
theorem C8_cast_to_witness :
    DistinctCodes enumValue ∧ int32Tensor.dtype ≠ diopi_dtype_float32 ∧
    dataTypeCast sampleTable enumValue noFailure 4 emptyRuntime int32Tensor diopi_dtype_float32 =
      some (diopiSuccess,
        Runtime.mk 1 [RequireCall.mk [2, 3] none diopi_dtype_float32]
          [CnnlCastCall.mk int32Tensor (other 2) (DiopiTensor.mk 0 diopi_dtype_float32 [2, 3])],
        DiopiTensor.mk 0 diopi_dtype_float32 [2, 3]) ∧
    ∃ ret ctx' src',
      dataTypeCast sampleTable enumValue noFailure 4 emptyRuntime int32Tensor
        diopi_dtype_float32 = some (ret, ctx', src') ∧
      (ret = diopiSuccess →
        src' = DiopiTensor.mk emptyRuntime.nextHandle diopi_dtype_float32 int32Tensor.shape ∧
        src'.shape = int32Tensor.shape ∧ src'.dtype = diopi_dtype_float32 ∧
        ∃ l, ctx'.required = emptyRuntime.required ++
          RequireCall.mk int32Tensor.shape none diopi_dtype_float32 :: l) ∧
      (sampleTable int32Tensor.dtype diopi_dtype_float32 = none →
        (int32Tensor.dtype, diopi_dtype_float32) ∉ specialPairs →
        ret = diopiDtypeNotSupported ∧ src' = int32Tensor) :=
  ⟨enumValue_distinct, by decide, by decide,
    C8_cast_to_rebinds_or_keeps enumValue_distinct sampleTable noFailure 0 emptyRuntime
      int32Tensor diopi_dtype_float32 (by decide)⟩

/-- C9 (as stated) fails: two float32 tensors of shapes [6] and [2, 3] are accepted by the
cast-into overload, which returns `diopiSuccess`. -/
theorem C9_counterexample_equal_dtype :
    float32Vector.shape ≠ float32Tensor.shape ∧
    dataTypeCastInto sampleTable enumValue noFailure 3 emptyRuntime float32Tensor float32Vector =
      some (diopiSuccess, emptyRuntime) := by
  decide

/-- C9 (amended): when the shapes of `dest` and `src` differ, the cast-into overload returns
the shape-mismatch status `diopiErrorOccurred` if their element types differ, and
`diopiSuccess` if their element types are equal; in both cases the runtime is untouched. -/
theorem C9_shape_mismatch_fails_unless_same_dtype (tbl : CastTable) (code : diopiDtype_t → Nat)
    (hw : CastOracle) (fuel : Nat) (ctx : Runtime) (dest src : DiopiTensor)
    (hshape : src.shape ≠ dest.shape) :
    (src.dtype ≠ dest.dtype →
      dataTypeCastInto tbl code hw fuel ctx dest src = some (diopiErrorOccurred, ctx)) ∧
    (src.dtype = dest.dtype →
      dataTypeCastInto tbl code hw fuel ctx dest src = some (diopiSuccess, ctx)) := by
  constructor
  · intro hd; simp [dataTypeCastInto, hd, hshape]
  · intro hd; simp [dataTypeCastInto, hd]

/-- C9 (amended) at a concrete input: an int32 source of shape [2, 3] into a float32 destination
of shape [6]. -/
theorem C9_shape_mismatch_witness :
    int32Tensor.shape ≠ float32Vector.shape ∧
    dataTypeCastInto sampleTable enumValue noFailure 3 emptyRuntime float32Vector int32Tensor =
      some (diopiErrorOccurred, emptyRuntime) :=
  ⟨by decide,
    (C9_shape_mismatch_fails_unless_same_dtype sampleTable enumValue noFailure 3 emptyRuntime
      float32Vector int32Tensor (by decide)).1 (by decide)⟩

/-- C10: the cast-into overload decides in three steps.  Equal element types: `diopiSuccess`,
runtime untouched.  Otherwise unequal shapes: `diopiErrorOccurred` (which is not
`diopiDtypeNotSupported`), runtime untouched.  Otherwise: `dataTypeCastInternal(ctx, src, dest)`
returns and its result is the result. -/
theorem C10_cast_into_three_way {code : diopiDtype_t → Nat} (hcode : DistinctCodes code)
    (tbl : CastTable) (hw : CastOracle) (n : Nat) (ctx : Runtime) (dest src : DiopiTensor) :
    (src.dtype = dest.dtype →
      dataTypeCastInto tbl code hw (n + 3) ctx dest src = some (diopiSuccess, ctx)) ∧
    (src.dtype ≠ dest.dtype → src.shape ≠ dest.shape →
      dataTypeCastInto tbl code hw (n + 3) ctx dest src = some (diopiErrorOccurred, ctx) ∧
      diopiErrorOccurred ≠ diopiDtypeNotSupported) ∧
    (src.dtype ≠ dest.dtype → src.shape = dest.shape →
      ∃ r, dataTypeCastInternal tbl code hw (n + 3) ctx src dest = some r ∧
        dataTypeCastInto tbl code hw (n + 3) ctx dest src = some r) := by
  refine ⟨fun hd => ?_, fun hd hs => ⟨?_, by decide⟩, fun hd hs => ?_⟩
  · simp [dataTypeCastInto, hd]
  · simp [dataTypeCastInto, hd, hs]
  · obtain ⟨ret, ctx', h, _⟩ := dataTypeCastInternal_total hcode tbl hw n ctx src dest
    exact ⟨(ret, ctx'), h, by simp [dataTypeCastInto, hd, hs, h]⟩

/-- C10 at a concrete input: an int32 source into a float32 destination of the same shape
runs the direct hardware cast into the destination. -/
theorem C10_cast_into_witness :
    DistinctCodes enumValue ∧ int32Tensor.dtype ≠ float32Tensor.dtype ∧
    int32Tensor.shape = float32Tensor.shape ∧
    dataTypeCastInto sampleTable enumValue noFailure 3 emptyRuntime float32Tensor int32Tensor =
      some (diopiSuccess,
        Runtime.mk 0 [] [CnnlCastCall.mk int32Tensor (other 2) float32Tensor]) ∧
    ∃ r, dataTypeCastInternal sampleTable enumValue noFailure 3 emptyRuntime int32Tensor
        float32Tensor = some r ∧
      dataTypeCastInto sampleTable enumValue noFailure 3 emptyRuntime float32Tensor
        int32Tensor = some r :=
  ⟨enumValue_distinct, by decide, by decide, by decide,
    (C10_cast_into_three_way enumValue_distinct sampleTable noFailure 0 emptyRuntime
      float32Tensor int32Tensor).2.2 (by decide) (by decide)⟩

/-! ## Promotion -/

theorem mem_foldl_insert (mem : Nat → DiopiTensor) (d : diopiDtype_t) (pTensors : List Nat)
    (s : Finset diopiDtype_t) :
    d ∈ pTensors.foldl (fun s pTensor => insert (mem pTensor).dtype s) s ↔
      d ∈ s ∨ d ∈ operandTypes mem pTensors := by
  induction pTensors generalizing s with
  | nil => simp [operandTypes]
  | cons p ps ih =>
    rw [List.foldl_cons, ih]
    simp only [operandTypes, List.map_cons, List.mem_cons, Finset.mem_insert]
    tauto

/-- The set built by the insertion loop holds exactly the operand types. -/
theorem mem_collectDtypes (mem : Nat → DiopiTensor) (d : diopiDtype_t) (pTensors : List Nat) :
    d ∈ collectDtypes mem pTensors ↔ d ∈ operandTypes mem pTensors := by
  unfold collectDtypes
  rw [mem_foldl_insert]
  simp

/-- The fallback `choiceDtype` is the search of the precedence order. -/
theorem choiceDtype_eq_firstSupported (sup : Finset diopiDtype_t) :
    choiceDtype sup =
      match firstSupported sup with
      | some t => Except.ok t
      | none => Except.error diopiDtypeNotSupported := by
  unfold choiceDtype firstSupported precedenceOrder
  simp only [List.find?]
  by_cases h1 : diopi_dtype_float32 ∈ sup
  · simp [h1]
  by_cases h2 : diopi_dtype_float16 ∈ sup
  · simp [h1, h2]
  by_cases h3 : diopi_dtype_int32 ∈ sup
  · simp [h1, h2, h3]
  by_cases h4 : diopi_dtype_int16 ∈ sup
  · simp [h1, h2, h3, h4]
  by_cases h5 : diopi_dtype_int8 ∈ sup
  · simp [h1, h2, h3, h4, h5]
  by_cases h6 : diopi_dtype_bool ∈ sup
  · simp [h1, h2, h3, h4, h5, h6]
  · simp [h1, h2, h3, h4, h5, h6]

/-- The target selection of `autoCastTensorType` in terms of the specification's candidate
target and fallback search. -/
theorem selectTargetType_eq (mem : Nat → DiopiTensor) (pTensors : List Nat)
    (sup : Finset diopiDtype_t) :
    selectTargetType (collectDtypes mem pTensors) sup =
      match candidateTarget (operandTypes mem pTensors) with
      | none => Except.error diopiDtypeNotSupported
      | some c => if c ∈ sup then Except.ok c else choiceDtype sup := by
  simp only [selectTargetType, candidateTarget, mem_collectDtypes]
  split_ifs <;> simp_all

/-- A non-empty operand list always has a candidate target, one of the six precedence types. -/
theorem candidateTarget_cons (mem : Nat → DiopiTensor) (p : Nat) (ps : List Nat) :
    ∃ c, candidateTarget (operandTypes mem (p :: ps)) = some c ∧ c ∈ precedenceOrder := by
  have hp : (mem p).dtype ∈ operandTypes mem (p :: ps) := by simp [operandTypes]
  unfold candidateTarget
  split_ifs with h1 h2 h3 h4 h5 h6
  · exact ⟨_, rfl, by simp [precedenceOrder]⟩
  · exact ⟨_, rfl, by simp [precedenceOrder]⟩
  · exact ⟨_, rfl, by simp [precedenceOrder]⟩
  · exact ⟨_, rfl, by simp [precedenceOrder]⟩
  · exact ⟨_, rfl, by simp [precedenceOrder]⟩
  · exact ⟨_, rfl, by simp [precedenceOrder]⟩
  · exfalso
    revert hp
    cases (mem p).dtype <;> intro hp <;> tauto

theorem firstSupported_some {sup : Finset diopiDtype_t} {t : diopiDtype_t}
    (h : firstSupported sup = some t) :
    t ∈ sup ∧ ∃ pre post, precedenceOrder = pre ++ t :: post ∧ ∀ e ∈ pre, e ∉ sup := by
  unfold firstSupported at h
  have h1 := List.find?_some h
  obtain ⟨pre, post, h2, h3⟩ := List.find?_eq_some.mp h |>.2
  refine ⟨by simpa using h1, pre, post, h2, fun e he => ?_⟩
  simpa using h3 e he

/-- The cast loop with four units of fuel returns; it keeps every shape, never touches a tensor
that already has the target type, and on `diopiSuccess` every listed tensor has the target
type. -/
theorem castLoop_spec {code : diopiDtype_t → Nat} (hcode : DistinctCodes code)
    (tbl : CastTable) (hw : CastOracle) (n : Nat) (t : diopiDtype_t) (pTensors : List Nat) :
    ∀ (ctx : Runtime) (mem : Nat → DiopiTensor),
      ∃ ret ctx' mem', castLoop tbl code hw (n + 4) t ctx mem pTensors = some (ret, ctx', mem') ∧
        (∀ q, (mem' q).shape = (mem q).shape) ∧
        (∀ q, (mem q).dtype = t → mem' q = mem q) ∧
        (ret = diopiSuccess → ∀ q ∈ pTensors, (mem' q).dtype = t) := by
  induction pTensors with
  | nil =>
    intro ctx mem
    exact ⟨diopiSuccess, ctx, mem, rfl, fun _ => rfl, fun _ _ => rfl, fun _ q hq => by simp at hq⟩
  | cons p ps ih =>
    intro ctx mem
    by_cases hp : (mem p).dtype = t
    · have h1 : dataTypeCast tbl code hw (n + 4) ctx (mem p) t = some (diopiSuccess, ctx, mem p) := by
        rw [← hp]; exact dataTypeCast_same tbl code hw (n + 3) ctx (mem p)
      obtain ⟨ret, ctx', mem', h, hshape, hkeep, hall⟩ := ih ctx mem
      refine ⟨ret, ctx', mem', ?_, hshape, hkeep, fun hret q hq => ?_⟩
      · simp only [castLoop, h1]
        simpa using h
      · rcases List.mem_cons.mp hq with rfl | hq
        · rw [hkeep _ hp]; exact hp
        · exact hall hret q hq
    · obtain ⟨ret, ctx2, _, _, h1⟩ := dataTypeCast_cases hcode tbl hw n ctx (mem p) t hp
      by_cases hret : diopiSuccess = ret
      · subst hret
        obtain ⟨ret', ctx', mem', h, hshape, hkeep, hall⟩ :=
          ih ctx2 (Function.update mem p (requiresTensor ctx (mem p).shape t).2)
        refine ⟨ret', ctx', mem', ?_, fun q => ?_, fun q hq => ?_, fun hret q hq => ?_⟩
        · simp only [castLoop, h1]
          simpa using h
        · rw [hshape q]
          by_cases hqp : q = p
          · subst hqp; simp [requiresTensor, diopiRequireTensor]
          · simp [Function.update_noteq hqp]
        · have hqp : q ≠ p := fun e => hp (e ▸ hq)
          rw [hkeep q (by simpa [Function.update_noteq hqp] using hq)]
          simp [Function.update_noteq hqp]
        · rcases List.mem_cons.mp hq with rfl | hq
          · rw [hkeep q (by simp [requiresTensor, diopiRequireTensor])]
            simp [requiresTensor, diopiRequireTensor]
          · exact hall hret q hq
      · refine ⟨ret, ctx2, mem, ?_, fun _ => rfl, fun _ _ => rfl,
          fun h0 => absurd h0.symm hret⟩
        simp [castLoop, h1, hret]

/-! ## Claims on promotion -/

/-- C1: for a non-empty operand list the candidate target given by the ordered first-match
rules exists, and whenever it is a member of `supportedTypes` it is the target type
`autoCastTensorType` selects and runs its cast loop with; for an empty operand list
`autoCastTensorType` returns `diopiDtypeNotSupported` and touches nothing. -/
theorem C1_candidate_is_target_when_supported (tbl : CastTable) (code : diopiDtype_t → Nat)
    (hw : CastOracle) (fuel : Nat) (ctx : Runtime) (mem : Nat → DiopiTensor) (p : Nat)
    (ps : List Nat) (supportedTypes : Finset diopiDtype_t) :
    (∃ c, candidateTarget (operandTypes mem (p :: ps)) = some c ∧
      (c ∈ supportedTypes →
        selectTargetType (collectDtypes mem (p :: ps)) supportedTypes = Except.ok c ∧
        autoCastTensorType tbl code hw fuel ctx mem (p :: ps) supportedTypes =
          castLoop tbl code hw fuel c ctx mem (p :: ps))) ∧
    autoCastTensorType tbl code hw fuel ctx mem [] supportedTypes =
      some (diopiDtypeNotSupported, ctx, mem) := by
  constructor
  · obtain ⟨c, hc, _⟩ := candidateTarget_cons mem p ps
    refine ⟨c, hc, fun hsup => ?_⟩
    have h := selectTargetType_eq mem (p :: ps) supportedTypes
    rw [hc] at h
    simp only [hsup, if_true] at h
    exact ⟨h, by simp [autoCastTensorType, h]⟩
  · have h : selectTargetType (collectDtypes mem []) supportedTypes =
        Except.error diopiDtypeNotSupported := by
      rw [selectTargetType_eq]; simp [operandTypes, candidateTarget]
    simp [autoCastTensorType, h]

/-- C2: for a non-empty operand list, if `supportedTypes` holds at least one of float32,
float16, int32, int16, int8, bool then `autoCastTensorType` selects a target type that is a
member of `supportedTypes` (and runs its cast loop with it); if it holds none of the six,
`autoCastTensorType` returns `diopiDtypeNotSupported` with the runtime and every tensor
untouched. -/
theorem C2_target_is_supported_or_fails (tbl : CastTable) (code : diopiDtype_t → Nat)
    (hw : CastOracle) (fuel : Nat) (ctx : Runtime) (mem : Nat → DiopiTensor) (p : Nat)
    (ps : List Nat) (supportedTypes : Finset diopiDtype_t) :
    ((∃ d ∈ precedenceOrder, d ∈ supportedTypes) →
      ∃ t, selectTargetType (collectDtypes mem (p :: ps)) supportedTypes = Except.ok t ∧
        t ∈ supportedTypes ∧
        autoCastTensorType tbl code hw fuel ctx mem (p :: ps) supportedTypes =
          castLoop tbl code hw fuel t ctx mem (p :: ps)) ∧
    ((∀ d ∈ precedenceOrder, d ∉ supportedTypes) →
      autoCastTensorType tbl code hw fuel ctx mem (p :: ps) supportedTypes =
        some (diopiDtypeNotSupported, ctx, mem)) := by
  obtain ⟨c, hc, hcp⟩ := candidateTarget_cons mem p ps
  have h := selectTargetType_eq mem (p :: ps) supportedTypes
  rw [hc] at h
  simp only at h
  constructor
  · rintro ⟨d, hd, hdsup⟩
    by_cases hsup : c ∈ supportedTypes
    · rw [if_pos hsup] at h
      exact ⟨c, h, hsup, by simp [autoCastTensorType, h]⟩
    · rw [if_neg hsup, choiceDtype_eq_firstSupported] at h
      cases hf : firstSupported supportedTypes with
      | none =>
        exfalso
        unfold firstSupported at hf
        rw [List.find?_eq_none] at hf
        exact absurd hdsup (by simpa using hf d hd)
      | some t =>
        rw [hf] at h
        exact ⟨t, h, (firstSupported_some hf).1, by simp [autoCastTensorType, h]⟩
  · intro hnone
    have hsup : c ∉ supportedTypes := hnone c hcp
    have hf : firstSupported supportedTypes = none := by
      unfold firstSupported
      rw [List.find?_eq_none]
      intro d hd
      simpa using hnone d hd
    rw [if_neg hsup, choiceDtype_eq_firstSupported, hf] at h
    simp [autoCastTensorType, h]

/-- C2 at concrete inputs: operands {int64, bool} with supportedTypes {int16, int8} select
int16; operands {uint16} with an empty supportedTypes fail and nothing is cast. -/
theorem C2_target_is_supported_witness :
    (∃ d ∈ precedenceOrder, d ∈ ({diopi_dtype_int16, diopi_dtype_int8} : Finset diopiDtype_t)) ∧
    (∃ t, selectTargetType (collectDtypes sampleMem [0, 1])
        {diopi_dtype_int16, diopi_dtype_int8} = Except.ok t ∧
      t ∈ ({diopi_dtype_int16, diopi_dtype_int8} : Finset diopiDtype_t) ∧
      autoCastTensorType sampleTable enumValue noFailure 4 emptyRuntime sampleMem [0, 1]
        {diopi_dtype_int16, diopi_dtype_int8} =
        castLoop sampleTable enumValue noFailure 4 t emptyRuntime sampleMem [0, 1]) ∧
    (∀ d ∈ precedenceOrder, d ∉ (∅ : Finset diopiDtype_t)) ∧
    autoCastTensorType sampleTable enumValue noFailure 4 emptyRuntime (fun _ => uint16Tensor) [0]
      ∅ = some (diopiDtypeNotSupported, emptyRuntime, fun _ => uint16Tensor) :=
  ⟨⟨diopi_dtype_int16, by decide, by decide⟩,
    (C2_target_is_supported_or_fails sampleTable enumValue noFailure 4 emptyRuntime sampleMem 0
      [1] {diopi_dtype_int16, diopi_dtype_int8}).1 ⟨diopi_dtype_int16, by decide, by decide⟩,
    by simp,
    (C2_target_is_supported_or_fails sampleTable enumValue noFailure 4 emptyRuntime
      (fun _ => uint16Tensor) 0 [] ∅).2 (by simp)⟩

/-- C3: for a non-empty operand list whose candidate target is not in `supportedTypes`, the
target `autoCastTensorType` selects is the result of searching the order float32, float16,
int32, int16, int8, bool for the first member of `supportedTypes`: a selected target is in
`supportedTypes` and every type before it in the order is not; when the search finds nothing
the status is `diopiDtypeNotSupported`. -/
theorem C3_fallback_is_first_supported (mem : Nat → DiopiTensor) (p : Nat) (ps : List Nat)
    (supportedTypes : Finset diopiDtype_t) (c : diopiDtype_t)
    (hc : candidateTarget (operandTypes mem (p :: ps)) = some c) (hsup : c ∉ supportedTypes) :
    selectTargetType (collectDtypes mem (p :: ps)) supportedTypes =
      (match firstSupported supportedTypes with
       | some t => Except.ok t
       | none => Except.error diopiDtypeNotSupported) ∧
    ∀ t, selectTargetType (collectDtypes mem (p :: ps)) supportedTypes = Except.ok t →
      t ∈ supportedTypes ∧
      ∃ pre post, precedenceOrder = pre ++ t :: post ∧ ∀ e ∈ pre, e ∉ supportedTypes := by
  have h := selectTargetType_eq mem (p :: ps) supportedTypes
  rw [hc] at h
  simp only [if_neg hsup] at h
  rw [choiceDtype_eq_firstSupported] at h
  refine ⟨h, fun t ht => ?_⟩
  rw [h] at ht
  cases hf : firstSupported supportedTypes with
  | none => rw [hf] at ht; cases ht
  | some t2 =>
    rw [hf] at ht
    cases ht
    exact firstSupported_some hf

/-- C3 at the specification's scenario: operands {int64} with supportedTypes {int16, int8}
have candidate int32, which is not supported, and the selected target is int16. -/
theorem C3_fallback_witness :
    candidateTarget (operandTypes sampleMem [0]) = some diopi_dtype_int32 ∧
    diopi_dtype_int32 ∉ ({diopi_dtype_int16, diopi_dtype_int8} : Finset diopiDtype_t) ∧
    selectTargetType (collectDtypes sampleMem [0]) {diopi_dtype_int16, diopi_dtype_int8} =
      Except.ok diopi_dtype_int16 :=
  ⟨by decide, by decide,
    (C3_fallback_is_first_supported sampleMem 0 [] {diopi_dtype_int16, diopi_dtype_int8}
      diopi_dtype_int32 (by decide) (by decide)).1.trans (by decide)⟩

/-- C4: `autoCastTensorType` returns, and whenever it returns `diopiSuccess` a target type was
selected, every tensor in the list has that element type afterwards, and each of them has the
shape it had before the call. -/
theorem C4_success_gives_common_type {code : diopiDtype_t → Nat} (hcode : DistinctCodes code)
    (tbl : CastTable) (hw : CastOracle) (n : Nat) (ctx : Runtime) (mem : Nat → DiopiTensor)
    (pTensors : List Nat) (supportedTypes : Finset diopiDtype_t) :
    ∃ ret ctx' mem',
      autoCastTensorType tbl code hw (n + 4) ctx mem pTensors supportedTypes =
        some (ret, ctx', mem') ∧
      (ret = diopiSuccess →
        ∃ t, selectTargetType (collectDtypes mem pTensors) supportedTypes = Except.ok t ∧
          ∀ q ∈ pTensors, (mem' q).dtype = t ∧ (mem' q).shape = (mem q).shape) := by
  cases hsel : selectTargetType (collectDtypes mem pTensors) supportedTypes with
  | error e =>
    refine ⟨e, ctx, mem, by simp [autoCastTensorType, hsel], fun hret => ?_⟩
    subst hret
    exfalso
    rw [selectTargetType_eq] at hsel
    cases hcand : candidateTarget (operandTypes mem pTensors) with
    | none => rw [hcand] at hsel; cases hsel
    | some c =>
      rw [hcand] at hsel
      simp only at hsel
      split_ifs at hsel
      rw [choiceDtype_eq_firstSupported] at hsel
      cases hf : firstSupported supportedTypes with
      | none => rw [hf] at hsel; cases hsel
      | some t => rw [hf] at hsel; cases hsel
  | ok t =>
    obtain ⟨ret, ctx', mem', h, hshape, _, hall⟩ :=
      castLoop_spec hcode tbl hw n t pTensors ctx mem
    exact ⟨ret, ctx', mem', by simp [autoCastTensorType, hsel, h],
      fun hret => ⟨t, rfl, fun q hq => ⟨hall hret q hq, hshape q⟩⟩⟩

/-- C4 at a concrete input: an int64 and a bool tensor with supportedTypes {int32}; both are
cast to int32 and keep the shape [2, 3]. -/
theorem C4_success_witness :
    DistinctCodes enumValue ∧
    (autoCastTensorType sampleTable enumValue noFailure 4 emptyRuntime sampleMem [0, 1]
        {diopi_dtype_int32}).map (fun r => (r.1, [0, 1].map r.2.2)) =
      some (diopiSuccess, [DiopiTensor.mk 0 diopi_dtype_int32 [2, 3],
        DiopiTensor.mk 1 diopi_dtype_int32 [2, 3]]) ∧
    ∃ ret ctx' mem',
      autoCastTensorType sampleTable enumValue noFailure 4 emptyRuntime sampleMem [0, 1]
        {diopi_dtype_int32} = some (ret, ctx', mem') ∧
      (ret = diopiSuccess →
        ∃ t, selectTargetType (collectDtypes sampleMem [0, 1]) {diopi_dtype_int32} =
            Except.ok t ∧
          ∀ q ∈ [0, 1], (mem' q).dtype = t ∧ (mem' q).shape = (sampleMem q).shape) :=
  ⟨enumValue_distinct, by decide,
    C4_success_gives_common_type enumValue_distinct sampleTable noFailure 0 emptyRuntime
      sampleMem [0, 1] {diopi_dtype_int32}⟩

/-- C1 at the specification's scenario: operands {float32, int32} with supportedTypes
{float16, float32} have candidate float32, which is supported and is the selected target. -/
theorem C1_candidate_scenario :
    candidateTarget (operandTypes sampleMem [3, 2]) = some diopi_dtype_float32 ∧
    selectTargetType (collectDtypes sampleMem [3, 2]) {diopi_dtype_float16, diopi_dtype_float32} =
      Except.ok diopi_dtype_float32 ∧
    autoCastTensorType sampleTable enumValue noFailure 4 emptyRuntime sampleMem []
      {diopi_dtype_float16, diopi_dtype_float32} =
      some (diopiDtypeNotSupported, emptyRuntime, sampleMem) :=
  ⟨by decide, by decide,
    (C1_candidate_is_target_when_supported sampleTable enumValue noFailure 4 emptyRuntime
      sampleMem 3 [2] {diopi_dtype_float16, diopi_dtype_float32}).2⟩

/-! ## Fuel, hops and requests -/

/-- One more unit of fuel never changes a result already obtained. -/
theorem fuel_succ (tbl : CastTable) (code : diopiDtype_t → Nat) (hw : CastOracle) :
    ∀ f : Nat,
      (∀ ctx src dest r, dataTypeCastInternal tbl code hw f ctx src dest = some r →
        dataTypeCastInternal tbl code hw (f + 1) ctx src dest = some r) ∧
      (∀ ctx src d r, dataTypeCast tbl code hw f ctx src d = some r →
        dataTypeCast tbl code hw (f + 1) ctx src d = some r) := by
  intro f
  induction f with
  | zero =>
    constructor
    · intro ctx src dest r h; simp [dataTypeCastInternal] at h
    · intro ctx src d r h; simp [dataTypeCast] at h
  | succ f ih =>
    constructor
    · intro ctx src dest r h
      rw [dataTypeCastInternal] at h ⊢
      cases htb : tbl src.dtype dest.dtype with
      | some ct => simpa [htb] using h
      | none =>
        simp only [htb] at h ⊢
        cases hk : switchKey code (MAKE_KEY (code src.dtype) (code dest.dtype)) with
        | none => simpa [hk] using h
        | some ct =>
          simp only [hk] at h ⊢
          cases hc : dataTypeCast tbl code hw f ctx src diopi_dtype_int32 with
          | none => simp [hc] at h
          | some r1 =>
            rw [ih.2 ctx src _ r1 hc]
            simpa [hc] using h
    · intro ctx src d r h
      rw [dataTypeCast] at h ⊢
      by_cases hd : src.dtype = d
      · simpa [hd] using h
      · simp only [hd, if_false] at h ⊢
        cases hi : dataTypeCastInternal tbl code hw f (requiresTensor ctx src.shape d).1 src
            (requiresTensor ctx src.shape d).2 with
        | none => simp [hi] at h
        | some r1 =>
          rw [ih.1 _ _ _ r1 hi]
          simpa [hi] using h

theorem dataTypeCast_fuel_add (tbl : CastTable) (code : diopiDtype_t → Nat) (hw : CastOracle)
    (f n : Nat) (ctx : Runtime) (src : DiopiTensor) (d : diopiDtype_t)
    (r : diopiError_t × Runtime × DiopiTensor)
    (h : dataTypeCast tbl code hw f ctx src d = some r) :
    dataTypeCast tbl code hw (f + n) ctx src d = some r := by
  induction n with
  | zero => exact h
  | succ n ih => exact (fuel_succ tbl code hw (f + n)).2 ctx src d r ih

theorem dataTypeCastInternal_fuel_add (tbl : CastTable) (code : diopiDtype_t → Nat)
    (hw : CastOracle) (f n : Nat) (ctx : Runtime) (src dest : DiopiTensor)
    (r : diopiError_t × Runtime)
    (h : dataTypeCastInternal tbl code hw f ctx src dest = some r) :
    dataTypeCastInternal tbl code hw (f + n) ctx src dest = some r := by
  induction n with
  | zero => exact h
  | succ n ih => exact (fuel_succ tbl code hw (f + n)).1 ctx src dest r ih

/-- What `dataTypeCastInternal` does to the two logs, by the way it takes. -/
theorem dataTypeCastInternal_logs {code : diopiDtype_t → Nat} (hcode : DistinctCodes code)
    (tbl : CastTable) (hw : CastOracle) (n : Nat) (ctx : Runtime) (src dest : DiopiTensor) :
    ∃ ret ctx', dataTypeCastInternal tbl code hw (n + 3) ctx src dest = some (ret, ctx') ∧
      (((src.dtype, dest.dtype) ∈ specialPairs ∧ tbl src.dtype dest.dtype = none) →
        ctx'.required = ctx.required ++ [RequireCall.mk src.shape none diopi_dtype_int32] ∧
        ∃ l, ctx'.casts = ctx.casts ++ l ∧ (l.length = 1 ∨ l.length = 2)) ∧
      (¬ ((src.dtype, dest.dtype) ∈ specialPairs ∧ tbl src.dtype dest.dtype = none) →
        ctx'.required = ctx.required ∧
        (ret = diopiSuccess → ∃ c, ctx'.casts = ctx.casts ++ [c])) := by
  rcases dataTypeCastInternal_cases hcode tbl hw n ctx src dest with
    ⟨ct, htb, h⟩ | ⟨htb, hsp, ret1, ctx1, src1, ct, _, _, hreq, _, ⟨l, hl, hlen⟩, h⟩ |
    ⟨htb, hsp, h⟩
  · refine ⟨(cnnlCastDataType hw ctx src ct dest).1, (cnnlCastDataType hw ctx src ct dest).2, h,
      fun hyes => ?_, fun _ => ?_⟩
    · rw [htb] at hyes; exact absurd hyes.2 (by simp)
    · rw [cnnlCastDataType_casts]; exact ⟨rfl, fun _ => ⟨_, rfl⟩⟩
  · refine ⟨(cnnlCastDataType hw ctx1 src1 ct dest).1, (cnnlCastDataType hw ctx1 src1 ct dest).2,
      h, fun _ => ?_, fun hno => absurd ⟨hsp, htb⟩ hno⟩
    rw [cnnlCastDataType_casts]
    refine ⟨hreq, l ++ [CnnlCastCall.mk src1 ct dest], by simp [hl], ?_⟩
    rcases l with _ | ⟨a, _ | ⟨b, l⟩⟩
    · left; simp
    · right; simp
    · simp at hlen
  · exact ⟨_, _, h, fun hyes => absurd hyes.1 hsp, fun _ => ⟨rfl, fun h0 => by cases h0⟩⟩

/-- For different types the status and the runtime `dataTypeCast` returns are those of its call
of `dataTypeCastInternal`. -/
theorem dataTypeCast_via_internal {code : diopiDtype_t → Nat} (hcode : DistinctCodes code)
    (tbl : CastTable) (hw : CastOracle) (n : Nat) (ctx : Runtime) (src : DiopiTensor)
    (destDtype : diopiDtype_t) (hne : src.dtype ≠ destDtype) :
    ∃ ret ctx2 src',
      dataTypeCastInternal tbl code hw (n + 3) (requiresTensor ctx src.shape destDtype).1 src
        (requiresTensor ctx src.shape destDtype).2 = some (ret, ctx2) ∧
      dataTypeCast tbl code hw (n + 4) ctx src destDtype = some (ret, ctx2, src') := by
  obtain ⟨ret, ctx2, hint, _, h⟩ := dataTypeCast_cases hcode tbl hw n ctx src destDtype hne
  by_cases hret : diopiSuccess = ret
  · exact ⟨ret, ctx2, (requiresTensor ctx src.shape destDtype).2, hint, by rw [h, ← hret]; simp⟩
  · exact ⟨ret, ctx2, src, hint, by rw [h]; simp [hret]⟩

/-- C12 (the code at failing inputs).  First input: int16 → int64 with a table that has no
entry for int16 → int32.  The nested first hop returns `diopiDtypeNotSupported`; the macro
drops that status, the hardware cast `CNNL_CAST_INT32_TO_INT64` is issued on the int16 source,
and the cast returns `diopiSuccess`.  Second input: bool → int64 with a kernel library whose
first cast call fails.  The nested first hop returns `diopiErrorOccurred`; that status is
dropped as well and the second hardware cast is issued on the bool source. -/
theorem C12_first_hop_failure_is_dropped :
    (int16Tensor.dtype, diopi_dtype_int64) ∈ specialPairs ∧
    sampleTable diopi_dtype_int16 diopi_dtype_int64 = none ∧
    sampleTable diopi_dtype_int16 diopi_dtype_int32 = none ∧
    dataTypeCast sampleTable enumValue noFailure 2 emptyRuntime int16Tensor diopi_dtype_int32 =
      some (diopiDtypeNotSupported,
        Runtime.mk 1 [RequireCall.mk [2, 3] none diopi_dtype_int32] [], int16Tensor) ∧
    dataTypeCastInternal sampleTable enumValue noFailure 3 emptyRuntime int16Tensor int64Tensor =
      some (diopiSuccess,
        Runtime.mk 1 [RequireCall.mk [2, 3] none diopi_dtype_int32]
          [CnnlCastCall.mk int16Tensor CNNL_CAST_INT32_TO_INT64 int64Tensor]) ∧
    dataTypeCast sampleTable enumValue noFailure 4 emptyRuntime int16Tensor diopi_dtype_int64 =
      some (diopiSuccess,
        Runtime.mk 2 [RequireCall.mk [2, 3] none diopi_dtype_int64,
            RequireCall.mk [2, 3] none diopi_dtype_int32]
          [CnnlCastCall.mk int16Tensor CNNL_CAST_INT32_TO_INT64
            (DiopiTensor.mk 0 diopi_dtype_int64 [2, 3])],
        DiopiTensor.mk 0 diopi_dtype_int64 [2, 3]) ∧
    dataTypeCast sampleTable enumValue failFirstCast 2 emptyRuntime boolTensor diopi_dtype_int32 =
      some (diopiErrorOccurred,
        Runtime.mk 1 [RequireCall.mk [2, 3] none diopi_dtype_int32]
          [CnnlCastCall.mk boolTensor (other 1) (DiopiTensor.mk 0 diopi_dtype_int32 [2, 3])],
        boolTensor) ∧
    dataTypeCastInternal sampleTable enumValue failFirstCast 3 emptyRuntime boolTensor
        int64Tensor =
      some (diopiSuccess,
        Runtime.mk 1 [RequireCall.mk [2, 3] none diopi_dtype_int32]
          [CnnlCastCall.mk boolTensor (other 1) (DiopiTensor.mk 0 diopi_dtype_int32 [2, 3]),
           CnnlCastCall.mk boolTensor CNNL_CAST_INT32_TO_INT64 int64Tensor]) := by
  decide

/-- C13 (as stated) fails: for the special pair bool → int64 the cast into an existing
destination makes one request (the int32 intermediate), and the cast to a new type makes
two. -/
theorem C13_counterexample_two_hop_requests :
    (dataTypeCastInto sampleTable enumValue noFailure 3 emptyRuntime int64Tensor boolTensor).map
        (fun r => (r.1, r.2.required)) =
      some (diopiSuccess, [RequireCall.mk [2, 3] none diopi_dtype_int32]) ∧
    (dataTypeCast sampleTable enumValue noFailure 4 emptyRuntime boolTensor
        diopi_dtype_int64).map (fun r => (r.1, r.2.1.required)) =
      some (diopiSuccess, [RequireCall.mk [2, 3] none diopi_dtype_int64,
        RequireCall.mk [2, 3] none diopi_dtype_int32]) := by
  decide

/-- C13 (amended): a single-tensor cast requests at most one tensor beyond its destination.
The cast to a new type makes at most two requests and the cast into an existing destination at
most one; the extra request is the int32 intermediate of a pair resolved by two hops, so for
every other pair the cast to a new type makes at most one request and the cast into an existing
destination none. -/
theorem C13_requests_bounded {code : diopiDtype_t → Nat} (hcode : DistinctCodes code)
    (tbl : CastTable) (hw : CastOracle) (n : Nat) (ctx : Runtime) (src dest : DiopiTensor)
    (destDtype : diopiDtype_t) :
    (∃ ret ctx' src', dataTypeCast tbl code hw (n + 4) ctx src destDtype = some (ret, ctx', src') ∧
      ∃ l, ctx'.required = ctx.required ++ l ∧ l.length ≤ 2 ∧
        (¬ ((src.dtype, destDtype) ∈ specialPairs ∧ tbl src.dtype destDtype = none) →
          l.length ≤ 1)) ∧
    (∃ ret ctx', dataTypeCastInto tbl code hw (n + 3) ctx dest src = some (ret, ctx') ∧
      ∃ l, ctx'.required = ctx.required ++ l ∧ l.length ≤ 1 ∧
        (¬ ((src.dtype, dest.dtype) ∈ specialPairs ∧ tbl src.dtype dest.dtype = none) →
          l = [])) := by
  constructor
  · by_cases hd : src.dtype = destDtype
    · subst hd
      exact ⟨diopiSuccess, ctx, src, dataTypeCast_same tbl code hw (n + 3) ctx src, [],
        by simp, by simp, fun _ => by simp⟩
    · obtain ⟨ret, ctx2, src', hint, hfin⟩ :=
        dataTypeCast_via_internal hcode tbl hw n ctx src destDtype hd
      obtain ⟨ret', ctx2', hint', hyes, hno⟩ := dataTypeCastInternal_logs hcode tbl hw n
        (requiresTensor ctx src.shape destDtype).1 src (requiresTensor ctx src.shape destDtype).2
      rw [hint] at hint'
      cases hint'
      refine ⟨ret, ctx2, src', hfin, ?_⟩
      by_cases hsp : (src.dtype, destDtype) ∈ specialPairs ∧ tbl src.dtype destDtype = none
      · refine ⟨[RequireCall.mk src.shape none destDtype,
          RequireCall.mk src.shape none diopi_dtype_int32], ?_, by simp, fun hn => absurd hsp hn⟩
        rw [(hyes hsp).1]; simp [requiresTensor, diopiRequireTensor]
      · refine ⟨[RequireCall.mk src.shape none destDtype], ?_, by simp, fun _ => by simp⟩
        rw [(hno hsp).1]; simp [requiresTensor, diopiRequireTensor]
  · by_cases hd : src.dtype = dest.dtype
    · exact ⟨diopiSuccess, ctx, by simp [dataTypeCastInto, hd], [], by simp, by simp,
        fun _ => rfl⟩
    · by_cases hs : src.shape = dest.shape
      · obtain ⟨ret, ctx', hint, hyes, hno⟩ :=
          dataTypeCastInternal_logs hcode tbl hw n ctx src dest
        refine ⟨ret, ctx', by simp [dataTypeCastInto, hd, hs, hint], ?_⟩
        by_cases hsp : (src.dtype, dest.dtype) ∈ specialPairs ∧ tbl src.dtype dest.dtype = none
        · exact ⟨[RequireCall.mk src.shape none diopi_dtype_int32], (hyes hsp).1, by simp,
            fun hn => absurd hsp hn⟩
        · exact ⟨[], by rw [(hno hsp).1]; simp, by simp, fun _ => rfl⟩
      · exact ⟨diopiErrorOccurred, ctx, by simp [dataTypeCastInto, hd, hs], [], by simp,
          by simp, fun _ => rfl⟩

/-- C13 (amended) at a concrete input: int32 → float32, a direct pair of the sample table. -/
theorem C13_requests_witness :
    DistinctCodes enumValue ∧
    (∃ ret ctx' src', dataTypeCast sampleTable enumValue noFailure 4 emptyRuntime int32Tensor
        diopi_dtype_float32 = some (ret, ctx', src') ∧
      ∃ l, ctx'.required = emptyRuntime.required ++ l ∧ l.length ≤ 2 ∧
        (¬ ((int32Tensor.dtype, diopi_dtype_float32) ∈ specialPairs ∧
            sampleTable int32Tensor.dtype diopi_dtype_float32 = none) → l.length ≤ 1)) ∧
    (dataTypeCastInto sampleTable enumValue noFailure 3 emptyRuntime float32Tensor
        int32Tensor).map (fun r => r.2.required) = some [] :=
  ⟨enumValue_distinct,
    (C13_requests_bounded enumValue_distinct sampleTable noFailure 0 emptyRuntime int32Tensor
      float32Tensor diopi_dtype_float32).1, by decide⟩

/-- C19: the recursion between `dataTypeCast` and `dataTypeCastInternal` ends.  The nested
call targets int32, for which the `switch` has no case (int32 is not the destination of a
special pair), so it does not recurse again: four units of fuel give the result of
`dataTypeCast` and three that of `dataTypeCastInternal`, and more fuel gives the same result.
A successful cast between different types issues exactly one or two hardware casts. -/
theorem C19_recursion_terminates {code : diopiDtype_t → Nat} (hcode : DistinctCodes code)
    (tbl : CastTable) (hw : CastOracle) (ctx : Runtime) (src dest : DiopiTensor)
    (destDtype : diopiDtype_t) :
    (∀ s, switchKey code (MAKE_KEY (code s) (code diopi_dtype_int32)) = none) ∧
    (∀ s, (s, diopi_dtype_int32) ∉ specialPairs) ∧
    (∃ r, ∀ n, dataTypeCastInternal tbl code hw (n + 3) ctx src dest = some r) ∧
    ∃ ret ctx' src',
      (∀ n, dataTypeCast tbl code hw (n + 4) ctx src destDtype = some (ret, ctx', src')) ∧
      (src.dtype ≠ destDtype → ret = diopiSuccess →
        ∃ l, ctx'.casts = ctx.casts ++ l ∧ (l.length = 1 ∨ l.length = 2)) := by
  refine ⟨switchKey_int32 hcode, fun s => by cases s <;> simp [specialPairs], ?_, ?_⟩
  · obtain ⟨ret, ctx', h, _⟩ := dataTypeCastInternal_total hcode tbl hw 0 ctx src dest
    refine ⟨(ret, ctx'), fun n => ?_⟩
    have := dataTypeCastInternal_fuel_add tbl code hw (0 + 3) n ctx src dest _ h
    rwa [show 0 + 3 + n = n + 3 by omega] at this
  · by_cases hd : src.dtype = destDtype
    · subst hd
      exact ⟨diopiSuccess, ctx, src, fun n => dataTypeCast_same tbl code hw (n + 3) ctx src,
        fun hne => absurd rfl hne⟩
    · obtain ⟨ret, ctx2, src', hint, hfin⟩ :=
        dataTypeCast_via_internal hcode tbl hw 0 ctx src destDtype hd
      obtain ⟨ret', ctx2', hint', hyes, hno⟩ := dataTypeCastInternal_logs hcode tbl hw 0
        (requiresTensor ctx src.shape destDtype).1 src (requiresTensor ctx src.shape destDtype).2
      rw [hint] at hint'
      cases hint'
      refine ⟨ret, ctx2, src', fun n => ?_, fun _ hret => ?_⟩
      · have := dataTypeCast_fuel_add tbl code hw (0 + 4) n ctx src destDtype _ hfin
        rwa [show 0 + 4 + n = n + 4 by omega] at this
      · by_cases hsp : (src.dtype, destDtype) ∈ specialPairs ∧ tbl src.dtype destDtype = none
        · obtain ⟨l, hl, hlen⟩ := (hyes hsp).2
          exact ⟨l, by rw [hl]; rfl, hlen⟩
        · obtain ⟨c, hc⟩ := (hno hsp).2 hret
          exact ⟨[c], by rw [hc]; rfl, Or.inl rfl⟩

/-- C19 at a concrete input: bool → int64 with the sample table ends with two hardware casts,
whatever fuel beyond four is supplied. -/
theorem C19_recursion_witness :
    DistinctCodes enumValue ∧
    (dataTypeCast sampleTable enumValue noFailure 4 emptyRuntime boolTensor
        diopi_dtype_int64).map (fun r => (r.1, r.2.1.casts.length)) = some (diopiSuccess, 2) ∧
    ∃ ret ctx' src',
      (∀ n, dataTypeCast sampleTable enumValue noFailure (n + 4) emptyRuntime boolTensor
        diopi_dtype_int64 = some (ret, ctx', src')) ∧
      (boolTensor.dtype ≠ diopi_dtype_int64 → ret = diopiSuccess →
        ∃ l, ctx'.casts = emptyRuntime.casts ++ l ∧ (l.length = 1 ∨ l.length = 2)) :=
  ⟨enumValue_distinct, by decide,
    (C19_recursion_terminates enumValue_distinct sampleTable noFailure emptyRuntime boolTensor
      int64Tensor diopi_dtype_int64).2.2.2⟩

/-! ## Promotion: order, failure and repetition -/

/-- What a returned `dataTypeCast` guarantees, whatever the fuel. -/
theorem dataTypeCast_some_props (tbl : CastTable) (code : diopiDtype_t → Nat) (hw : CastOracle)
    (f : Nat) (ctx : Runtime) (src : DiopiTensor) (d : diopiDtype_t) (ret : diopiError_t)
    (ctx' : Runtime) (src' : DiopiTensor)
    (h : dataTypeCast tbl code hw f ctx src d = some (ret, ctx', src')) :
    (src.dtype = d → ret = diopiSuccess ∧ ctx' = ctx ∧ src' = src) ∧
    (ret = diopiSuccess → src'.dtype = d ∧ src'.shape = src.shape) ∧
    (ret ≠ diopiSuccess → src' = src) := by
  cases f with
  | zero => simp [dataTypeCast] at h
  | succ f =>
    rw [dataTypeCast] at h
    by_cases hd : src.dtype = d
    · simp only [hd, if_true, Option.some.injEq, Prod.mk.injEq] at h
      obtain ⟨rfl, rfl, rfl⟩ := h
      exact ⟨fun _ => ⟨rfl, rfl, rfl⟩, fun _ => ⟨hd, rfl⟩, fun hne => absurd rfl hne⟩
    · simp only [hd, if_false] at h
      cases hi : dataTypeCastInternal tbl code hw f (requiresTensor ctx src.shape d).1 src
          (requiresTensor ctx src.shape d).2 with
      | none => simp [hi] at h
      | some r1 =>
        obtain ⟨ret1, ctx2⟩ := r1
        simp only [hi] at h
        by_cases hret : diopiSuccess = ret1
        · subst hret
          simp only [ne_eq, not_true_eq_false, if_false, Option.some.injEq,
            Prod.mk.injEq] at h
          obtain ⟨rfl, rfl, rfl⟩ := h
          exact ⟨fun e => absurd e hd, fun _ => ⟨rfl, rfl⟩, fun hne => absurd rfl hne⟩
        · simp only [ne_eq, hret, not_false_eq_true, if_true, Option.some.injEq,
            Prod.mk.injEq] at h
          obtain ⟨rfl, rfl, rfl⟩ := h
          exact ⟨fun e => absurd e hd, fun e => absurd e.symm hret, fun _ => rfl⟩

/-- What a returned cast loop guarantees, whatever the fuel. -/
theorem castLoop_some_props (tbl : CastTable) (code : diopiDtype_t → Nat) (hw : CastOracle)
    (f : Nat) (t : diopiDtype_t) (pTensors : List Nat) :
    ∀ (ctx : Runtime) (mem : Nat → DiopiTensor) (ret : diopiError_t) (ctx' : Runtime)
      (mem' : Nat → DiopiTensor),
      castLoop tbl code hw f t ctx mem pTensors = some (ret, ctx', mem') →
      (∀ q, q ∉ pTensors → mem' q = mem q) ∧
      (∀ q, (mem q).dtype = t → mem' q = mem q) ∧
      (ret = diopiSuccess → ∀ q ∈ pTensors, (mem' q).dtype = t) := by
  induction pTensors with
  | nil =>
    intro ctx mem ret ctx' mem' h
    simp only [castLoop, Option.some.injEq, Prod.mk.injEq] at h
    obtain ⟨rfl, rfl, rfl⟩ := h
    exact ⟨fun _ _ => rfl, fun _ _ => rfl, fun _ q hq => by simp at hq⟩
  | cons p ps ih =>
    intro ctx mem ret ctx' mem' h
    rw [castLoop] at h
    cases hc : dataTypeCast tbl code hw f ctx (mem p) t with
    | none => simp [hc] at h
    | some r1 =>
      obtain ⟨ret1, ctx1, t1⟩ := r1
      have hp := dataTypeCast_some_props tbl code hw f ctx (mem p) t ret1 ctx1 t1 hc
      simp only [hc] at h
      by_cases hret : diopiSuccess = ret1
      · subst hret
        simp only [ne_eq, not_true_eq_false, if_false] at h
        obtain ⟨h1, h2, h3⟩ := ih ctx1 (Function.update mem p t1) ret ctx' mem' h
        have ht1 := hp.2.1 rfl
        refine ⟨fun q hq => ?_, fun q hq => ?_, fun hr q hq => ?_⟩
        · have hqp : q ≠ p := fun e => hq (e ▸ List.mem_cons_self _ _)
          rw [h1 q (fun hm => hq (List.mem_cons_of_mem _ hm)), Function.update_noteq hqp]
        · by_cases hqp : q = p
          · subst hqp
            have := (hp.1 hq).2.2
            rw [h2 q (by simp [ht1.1]), Function.update_same, this]
          · rw [h2 q (by simpa [Function.update_noteq hqp] using hq),
              Function.update_noteq hqp]
        · rcases List.mem_cons.mp hq with rfl | hq
          · rw [h2 q (by simp [ht1.1]), Function.update_same]; exact ht1.1
          · exact h3 hr q hq
      · simp only [ne_eq, hret, not_false_eq_true, if_true, Option.some.injEq,
          Prod.mk.injEq] at h
        obtain ⟨rfl, rfl, rfl⟩ := h
        have hsrc := hp.2.2 (fun e => hret e.symm)
        subst hsrc
        rw [Function.update_eq_self]
        exact ⟨fun _ _ => rfl, fun _ _ => rfl, fun e => absurd e.symm hret⟩

/-- The cast loop over a concatenation: the second part runs only if the first returned
`diopiSuccess`. -/
theorem castLoop_append (tbl : CastTable) (code : diopiDtype_t → Nat) (hw : CastOracle)
    (f : Nat) (t : diopiDtype_t) (pre rest : List Nat) :
    ∀ (ctx : Runtime) (mem : Nat → DiopiTensor),
      castLoop tbl code hw f t ctx mem (pre ++ rest) =
        match castLoop tbl code hw f t ctx mem pre with
        | none => none
        | some (ret, ctx1, mem1) =>
          if diopiSuccess ≠ ret then some (ret, ctx1, mem1)
          else castLoop tbl code hw f t ctx1 mem1 rest := by
  induction pre with
  | nil => intro ctx mem; simp [castLoop]
  | cons p ps ih =>
    intro ctx mem
    rw [List.cons_append, castLoop, castLoop]
    cases hc : dataTypeCast tbl code hw f ctx (mem p) t with
    | none => simp
    | some r1 =>
      obtain ⟨ret1, ctx1, t1⟩ := r1
      by_cases hret : diopiSuccess = ret1
      · subst hret
        simp only [ne_eq, not_true_eq_false, if_false]
        exact ih ctx1 _
      · simp [hret]

/-- The selection of the target type reads the operand types as a set. -/
theorem collectDtypes_congr (mem mem' : Nat → DiopiTensor) (ps ps' : List Nat)
    (h : ∀ d, d ∈ operandTypes mem ps ↔ d ∈ operandTypes mem' ps') :
    collectDtypes mem ps = collectDtypes mem' ps' := by
  ext d
  rw [mem_collectDtypes, mem_collectDtypes]
  exact h d

/-- A selected target is supported and is one of the six precedence types. -/
theorem selectTargetType_ok (mem : Nat → DiopiTensor) (ps : List Nat)
    (sup : Finset diopiDtype_t) (t : diopiDtype_t)
    (h : selectTargetType (collectDtypes mem ps) sup = Except.ok t) :
    t ∈ sup ∧ t ∈ precedenceOrder ∧ ps ≠ [] := by
  rw [selectTargetType_eq] at h
  cases ps with
  | nil => simp [operandTypes, candidateTarget] at h
  | cons p ps =>
    obtain ⟨c, hc, hcp⟩ := candidateTarget_cons mem p ps
    rw [hc] at h
    simp only at h
    by_cases hsup : c ∈ sup
    · rw [if_pos hsup] at h
      cases h
      exact ⟨hsup, hcp, by simp⟩
    · rw [if_neg hsup, choiceDtype_eq_firstSupported] at h
      cases hf : firstSupported sup with
      | none => rw [hf] at h; cases h
      | some t2 =>
        rw [hf] at h
        cases h
        obtain ⟨h1, pre, post, h2, _⟩ := firstSupported_some hf
        exact ⟨h1, by rw [h2]; simp, by simp⟩

/-- When every operand has the precedence type `t`, the candidate target is `t`. -/
theorem candidateTarget_all_same (types : List diopiDtype_t) (t : diopiDtype_t)
    (hne : types ≠ []) (hall : ∀ d ∈ types, d = t) (ht : t ∈ precedenceOrder) :
    candidateTarget types = some t := by
  have hmem : ∀ d, d ∈ types ↔ d = t := by
    intro d
    constructor
    · exact hall d
    · rintro rfl
      cases types with
      | nil => exact absurd rfl hne
      | cons a l => rw [← hall a (List.mem_cons_self _ _)]; exact List.mem_cons_self _ _
  simp only [candidateTarget, hmem]
  simp only [precedenceOrder, List.mem_cons, List.mem_singleton, List.not_mem_nil, or_false] at ht
  rcases ht with rfl | rfl | rfl | rfl | rfl | rfl <;> simp

/-- A failed selection of the target type has status `diopiDtypeNotSupported`. -/
theorem selectTargetType_error (mem : Nat → DiopiTensor) (ps : List Nat)
    (sup : Finset diopiDtype_t) (e : diopiError_t)
    (h : selectTargetType (collectDtypes mem ps) sup = Except.error e) :
    e = diopiDtypeNotSupported := by
  rw [selectTargetType_eq] at h
  cases hcand : candidateTarget (operandTypes mem ps) with
  | none => rw [hcand] at h; cases h; rfl
  | some c =>
    rw [hcand] at h
    simp only at h
    split_ifs at h
    rw [choiceDtype_eq_firstSupported] at h
    cases hf : firstSupported sup with
    | none => rw [hf] at h; cases h; rfl
    | some t => rw [hf] at h; cases h

/-- The cast loop over tensors that all have the target type already does nothing. -/
theorem castLoop_noop (tbl : CastTable) (code : diopiDtype_t → Nat) (hw : CastOracle)
    (n : Nat) (t : diopiDtype_t) (ctx : Runtime) (mem : Nat → DiopiTensor) (ps : List Nat)
    (hall : ∀ q ∈ ps, (mem q).dtype = t) :
    castLoop tbl code hw (n + 1) t ctx mem ps = some (diopiSuccess, ctx, mem) := by
  induction ps with
  | nil => rfl
  | cons p ps ih =>
    have hp : (mem p).dtype = t := hall p (List.mem_cons_self _ _)
    have h1 : dataTypeCast tbl code hw (n + 1) ctx (mem p) t = some (diopiSuccess, ctx, mem p) := by
      rw [← hp]; exact dataTypeCast_same tbl code hw n ctx (mem p)
    rw [castLoop, h1]
    simp only [ne_eq, not_true_eq_false, if_false, Function.update_eq_self]
    exact ih (fun q hq => hall q (List.mem_cons_of_mem _ hq))

/-! ## Claims on failure, order and repetition in promotion -/

/-- C11 (as stated) fails when a later list entry points to a tensor variable that an earlier
entry points to.  With the list of addresses [0, 3, 0] the cast at position 2 (float32 → int32)
is the first to fail; the tensor at position 3 is the variable at address 0, which was an int64
tensor with handle 101 before the call and is an int32 tensor with handle 0 after it. -/
theorem C11_counterexample_repeated_reference :
    selectTargetType (collectDtypes sampleMem [0, 3, 0]) {diopi_dtype_int32} =
      Except.ok diopi_dtype_int32 ∧
    (autoCastTensorType sampleTable enumValue noFailure 4 emptyRuntime sampleMem [0, 3, 0]
        {diopi_dtype_int32}).map (fun r => (r.1, [0, 3, 0].map r.2.2)) =
      some (diopiDtypeNotSupported,
        [DiopiTensor.mk 0 diopi_dtype_int32 [2, 3], float32Tensor,
         DiopiTensor.mk 0 diopi_dtype_int32 [2, 3]]) ∧
    [0, 3, 0].map sampleMem = [int64Tensor, float32Tensor, int64Tensor] := by
  decide

/-- C11 (amended): let the casts of the entries before position k succeed and the cast of the
k-th entry be the first to fail, with status `ret`.  Then `autoCastTensorType` returns `ret`,
the tensor variables are left as they were when the k-th cast began (no rollback, no further
cast), every tensor before position k has the target type, the k-th tensor is the one it was
before the call, and so is every later tensor that is not also listed before position k. -/
theorem C11_first_failure_stops_promotion (tbl : CastTable) (code : diopiDtype_t → Nat)
    (hw : CastOracle) (f : Nat) (ctx : Runtime) (mem : Nat → DiopiTensor)
    (pre : List Nat) (p : Nat) (post : List Nat) (supportedTypes : Finset diopiDtype_t)
    (t : diopiDtype_t) (ctx1 : Runtime) (mem1 : Nat → DiopiTensor) (ret : diopiError_t)
    (ctx2 : Runtime) (src' : DiopiTensor)
    (hsel : selectTargetType (collectDtypes mem (pre ++ p :: post)) supportedTypes = Except.ok t)
    (hpre : castLoop tbl code hw f t ctx mem pre = some (diopiSuccess, ctx1, mem1))
    (hfail : dataTypeCast tbl code hw f ctx1 (mem1 p) t = some (ret, ctx2, src'))
    (hret : ret ≠ diopiSuccess) :
    autoCastTensorType tbl code hw f ctx mem (pre ++ p :: post) supportedTypes =
      some (ret, ctx2, mem1) ∧
    (∀ q ∈ pre, (mem1 q).dtype = t) ∧
    mem1 p = mem p ∧
    (∀ q ∈ post, q ∉ pre → mem1 q = mem q) := by
  obtain ⟨h1, _, h3⟩ := castLoop_some_props tbl code hw f t pre ctx mem _ _ _ hpre
  have hp := dataTypeCast_some_props tbl code hw f ctx1 (mem1 p) t ret ctx2 src' hfail
  have hsrc : src' = mem1 p := hp.2.2 hret
  have hnot : p ∉ pre := fun hm => hret (hp.1 (h3 rfl p hm)).1
  refine ⟨?_, h3 rfl, h1 p hnot, fun q _ hq => h1 q hq⟩
  simp only [autoCastTensorType, hsel]
  rw [castLoop_append, hpre]
  simp only [ne_eq, not_true_eq_false, if_false]
  rw [castLoop, hfail]
  simp [hret.symm, hsrc]

/-- C11 (amended) at a concrete input: addresses [0, 3, 1], an int64, a float32 and a bool
tensor, with supportedTypes {int32}.  The int64 tensor is cast, the float32 tensor fails, the
bool tensor is not reached. -/
theorem C11_first_failure_witness :
    (autoCastTensorType sampleTable enumValue noFailure 4 emptyRuntime sampleMem [0, 3, 1]
        {diopi_dtype_int32}).map (fun r => (r.1, [0, 3, 1].map r.2.2)) =
      some (diopiDtypeNotSupported,
        [DiopiTensor.mk 0 diopi_dtype_int32 [2, 3], float32Tensor, boolTensor]) ∧
    (autoCastTensorType sampleTable enumValue noFailure 4 emptyRuntime sampleMem
        ([0] ++ 3 :: [1]) {diopi_dtype_int32} =
      some (diopiDtypeNotSupported,
        Runtime.mk 2 [RequireCall.mk [2, 3] none diopi_dtype_int32,
            RequireCall.mk [2, 3] none diopi_dtype_int32]
          [CnnlCastCall.mk int64Tensor (other 4) (DiopiTensor.mk 0 diopi_dtype_int32 [2, 3])],
        Function.update sampleMem 0 (DiopiTensor.mk 0 diopi_dtype_int32 [2, 3]))) :=
  ⟨by decide,
    (C11_first_failure_stops_promotion sampleTable enumValue noFailure 4 emptyRuntime sampleMem
      [0] 3 [1] {diopi_dtype_int32} diopi_dtype_int32
      (Runtime.mk 1 [RequireCall.mk [2, 3] none diopi_dtype_int32]
        [CnnlCastCall.mk int64Tensor (other 4) (DiopiTensor.mk 0 diopi_dtype_int32 [2, 3])])
      (Function.update sampleMem 0 (DiopiTensor.mk 0 diopi_dtype_int32 [2, 3]))
      diopiDtypeNotSupported
      (Runtime.mk 2 [RequireCall.mk [2, 3] none diopi_dtype_int32,
          RequireCall.mk [2, 3] none diopi_dtype_int32]
        [CnnlCastCall.mk int64Tensor (other 4) (DiopiTensor.mk 0 diopi_dtype_int32 [2, 3])])
      float32Tensor (by decide) (by rfl) (by decide) (by decide)).1⟩

/-- C18: the target type `autoCastTensorType` selects depends only on the collection of operand
element types and on `supportedTypes`.  For two operand lists whose element types are the same
up to order, the selection gives the same target type or the same failure status, and on
failure both calls return that status. -/
theorem C18_target_depends_on_types_only (tbl : CastTable) (code : diopiDtype_t → Nat)
    (hw : CastOracle) (f : Nat) (ctx ctx' : Runtime) (mem mem' : Nat → DiopiTensor)
    (ps ps' : List Nat) (supportedTypes : Finset diopiDtype_t)
    (hperm : (operandTypes mem ps).Perm (operandTypes mem' ps')) :
    selectTargetType (collectDtypes mem ps) supportedTypes =
      selectTargetType (collectDtypes mem' ps') supportedTypes ∧
    (∀ e, selectTargetType (collectDtypes mem ps) supportedTypes = Except.error e →
      autoCastTensorType tbl code hw f ctx mem ps supportedTypes = some (e, ctx, mem) ∧
      autoCastTensorType tbl code hw f ctx' mem' ps' supportedTypes = some (e, ctx', mem')) := by
  have h : collectDtypes mem ps = collectDtypes mem' ps' :=
    collectDtypes_congr mem mem' ps ps' (fun d => hperm.mem_iff)
  refine ⟨by rw [h], fun e he => ⟨by simp [autoCastTensorType, he], ?_⟩⟩
  rw [h] at he
  simp [autoCastTensorType, he]

/-- C18 at a concrete input: the operand lists [int64, bool] and [bool, int64] with
supportedTypes {int16, int8} both select int16. -/
theorem C18_target_witness :
    (operandTypes sampleMem [0, 1]).Perm (operandTypes sampleMem [1, 0]) ∧
    selectTargetType (collectDtypes sampleMem [0, 1]) {diopi_dtype_int16, diopi_dtype_int8} =
      Except.ok diopi_dtype_int16 ∧
    selectTargetType (collectDtypes sampleMem [0, 1]) {diopi_dtype_int16, diopi_dtype_int8} =
      selectTargetType (collectDtypes sampleMem [1, 0]) {diopi_dtype_int16, diopi_dtype_int8} :=
  ⟨List.Perm.swap _ _ _, by decide,
    (C18_target_depends_on_types_only sampleTable enumValue noFailure 4 emptyRuntime
      emptyRuntime sampleMem sampleMem [0, 1] [1, 0] {diopi_dtype_int16, diopi_dtype_int8}
      (List.Perm.swap _ _ _)).1⟩

/-- C20: promotion is idempotent.  If `autoCastTensorType` returned `diopiSuccess`, calling it
again on the resulting tensor variables with the same `supportedTypes` returns `diopiSuccess`
(with any positive fuel), selects the same target type, and leaves the runtime and every tensor
variable exactly as they were: no request, no hardware cast, no handle changed. -/
theorem C20_promotion_idempotent (tbl : CastTable) (code : diopiDtype_t → Nat)
    (hw : CastOracle) (f n : Nat) (ctx ctx' : Runtime) (mem mem' : Nat → DiopiTensor)
    (ps : List Nat) (supportedTypes : Finset diopiDtype_t)
    (h : autoCastTensorType tbl code hw f ctx mem ps supportedTypes =
      some (diopiSuccess, ctx', mem')) :
    autoCastTensorType tbl code hw (n + 1) ctx' mem' ps supportedTypes =
      some (diopiSuccess, ctx', mem') ∧
    selectTargetType (collectDtypes mem' ps) supportedTypes =
      selectTargetType (collectDtypes mem ps) supportedTypes := by
  cases hsel : selectTargetType (collectDtypes mem ps) supportedTypes with
  | error e =>
    have he := selectTargetType_error mem ps supportedTypes e hsel
    simp [autoCastTensorType, hsel, he] at h
  | ok t =>
    simp only [autoCastTensorType, hsel] at h
    obtain ⟨_, _, h3⟩ := castLoop_some_props tbl code hw f t ps ctx mem _ _ _ h
    obtain ⟨htsup, htprec, hne⟩ := selectTargetType_ok mem ps supportedTypes t hsel
    have hall : ∀ q ∈ ps, (mem' q).dtype = t := h3 rfl
    have hcand : candidateTarget (operandTypes mem' ps) = some t := by
      apply candidateTarget_all_same _ _ _ _ htprec
      · simpa [operandTypes] using hne
      · intro d hd
        simp only [operandTypes, List.mem_map] at hd
        obtain ⟨q, hq, rfl⟩ := hd
        exact hall q hq
    have hsel' : selectTargetType (collectDtypes mem' ps) supportedTypes = Except.ok t := by
      rw [selectTargetType_eq, hcand]
      simp [htsup]
    refine ⟨?_, hsel'⟩
    simp only [autoCastTensorType, hsel']
    exact castLoop_noop tbl code hw n t ctx' mem' ps hall

/-- C20 at a concrete input: after the promotion of an int64 and a bool tensor to int32, a
second promotion returns `diopiSuccess` and changes nothing. -/
theorem C20_promotion_witness :
    autoCastTensorType sampleTable enumValue noFailure 4 emptyRuntime sampleMem [0, 1]
        {diopi_dtype_int32} =
      some (diopiSuccess,
        Runtime.mk 2 [RequireCall.mk [2, 3] none diopi_dtype_int32,
            RequireCall.mk [2, 3] none diopi_dtype_int32]
          [CnnlCastCall.mk int64Tensor (other 4) (DiopiTensor.mk 0 diopi_dtype_int32 [2, 3]),
           CnnlCastCall.mk boolTensor (other 1) (DiopiTensor.mk 1 diopi_dtype_int32 [2, 3])],
        Function.update (Function.update sampleMem 0 (DiopiTensor.mk 0 diopi_dtype_int32 [2, 3]))
          1 (DiopiTensor.mk 1 diopi_dtype_int32 [2, 3])) ∧
    autoCastTensorType sampleTable enumValue noFailure 1
        (Runtime.mk 2 [RequireCall.mk [2, 3] none diopi_dtype_int32,
            RequireCall.mk [2, 3] none diopi_dtype_int32]
          [CnnlCastCall.mk int64Tensor (other 4) (DiopiTensor.mk 0 diopi_dtype_int32 [2, 3]),
           CnnlCastCall.mk boolTensor (other 1) (DiopiTensor.mk 1 diopi_dtype_int32 [2, 3])])
        (Function.update (Function.update sampleMem 0 (DiopiTensor.mk 0 diopi_dtype_int32 [2, 3]))
          1 (DiopiTensor.mk 1 diopi_dtype_int32 [2, 3])) [0, 1] {diopi_dtype_int32} =
      some (diopiSuccess,
        Runtime.mk 2 [RequireCall.mk [2, 3] none diopi_dtype_int32,
            RequireCall.mk [2, 3] none diopi_dtype_int32]
          [CnnlCastCall.mk int64Tensor (other 4) (DiopiTensor.mk 0 diopi_dtype_int32 [2, 3]),
           CnnlCastCall.mk boolTensor (other 1) (DiopiTensor.mk 1 diopi_dtype_int32 [2, 3])],
        Function.update (Function.update sampleMem 0 (DiopiTensor.mk 0 diopi_dtype_int32 [2, 3]))
          1 (DiopiTensor.mk 1 diopi_dtype_int32 [2, 3])) :=
  ⟨by rfl,
    (C20_promotion_idempotent sampleTable enumValue noFailure 4 0 emptyRuntime _ sampleMem _
      [0, 1] {diopi_dtype_int32} (by rfl)).1⟩

/-! ## Layout synthesis -/

theorem wrapInt64_of_inRange {x : Int} (h1 : -2 ^ 63 ≤ x) (h2 : x < 2 ^ 63) :
    wrapInt64 x = x := by
  unfold wrapInt64
  omega

/-- One loop body in terms of `nextStride`. -/
theorem strideStep_eq (shapes strides : List Int) (stride x : Int) (k : Nat)
    (hk : k < strides.length) (hx : shapes[k]? = some x) :
    strideStep shapes k (strides, stride) = some (strides.set k stride, nextStride stride x) := by
  simp only [strideStep, hk, if_true, hx, nextStride]
  by_cases h0 : x = 0
  · simp [h0]
  · by_cases h1 : x = -1
    · simp [h1]
    · by_cases hs : stride = -1
      · simp [h0, h1, hs]
      · simp [h0, h1, hs]

/-- The `Contiguous` loop from index `i` downwards: it returns, keeps the entries at `i` and
above, writes the incoming `stride` at `i - 1`, and links each lower entry to its right
neighbour by `nextStride`. -/
theorem contiguousLoop_spec (shapes : List Int) :
    ∀ (i : Nat) (strides : List Int) (stride : Int),
      i ≤ shapes.length → strides.length = shapes.length →
      ∃ strides' stride', contiguousLoop shapes i (strides, stride) = some (strides', stride') ∧
        strides'.length = shapes.length ∧
        (∀ j, i ≤ j → strides'[j]? = strides[j]?) ∧
        (∀ j, j + 1 = i → strides'[j]? = some stride) ∧
        (∀ j s x, j + 1 < i → strides'[j + 1]? = some s → shapes[j + 1]? = some x →
          strides'[j]? = some (nextStride s x)) := by
  intro i
  induction i with
  | zero =>
    intro strides stride _ hlen
    exact ⟨strides, stride, rfl, hlen, fun _ _ => rfl, fun j hj => by omega,
      fun j _ _ hj => by omega⟩
  | succ i ih =>
    intro strides stride hi hlen
    have hilt : i < shapes.length := by omega
    have hx : shapes[i]? = some shapes[i] := List.getElem?_eq_getElem hilt
    have hstep := strideStep_eq shapes strides stride shapes[i] i (by omega) hx
    obtain ⟨strides', stride', hloop, hlen', hkeep, hlast, hrec⟩ :=
      ih (strides.set i stride) (nextStride stride shapes[i]) (by omega) (by simpa using hlen)
    refine ⟨strides', stride', ?_, hlen', fun j hj => ?_, fun j hj => ?_, fun j s x hj hs hxj => ?_⟩
    · rw [contiguousLoop, hstep]
      exact hloop
    · rw [hkeep j (by omega), List.getElem?_set_ne (by omega)]
    · have hji : j = i := by omega
      subst hji
      rw [hkeep j (le_refl _), List.getElem?_set_self (by omega)]
    · by_cases hji : j + 1 = i
      · rw [hlast j hji]
        subst hji
        rw [hkeep (j + 1) (le_refl _), List.getElem?_set_self (by omega)] at hs
        rw [hx] at hxj
        cases hs
        cases hxj
        rfl
      · exact hrec j s x (by omega) hs hxj

/-- The strides of the `Contiguous` format exist for every shape; the last one is 1 and each
other one comes from its right neighbour by `nextStride`. -/
theorem contiguousStrides_spec (shapes : List Int) :
    ∃ strides, contiguousStrides shapes MemoryFormat.Contiguous = some strides ∧
      strides.length = shapes.length ∧
      (∀ j, j + 1 = shapes.length → strides[j]? = some 1) ∧
      (∀ j s x, j + 1 < shapes.length → strides[j + 1]? = some s → shapes[j + 1]? = some x →
        strides[j]? = some (nextStride s x)) := by
  obtain ⟨strides', stride', hloop, hlen, _, hlast, hrec⟩ :=
    contiguousLoop_spec shapes shapes.length (List.replicate shapes.length 0) 1 (le_refl _)
      (by simp)
  exact ⟨strides', by simp [contiguousStrides, hloop], hlen, hlast, hrec⟩

/-- The running product of the extents from index `i` on, zero extents skipped. -/
theorem suffixProd_step (shapes : List Int) (i : Nat) (hi : i < shapes.length) :
    ((shapes.drop i).map skipZero).prod =
      skipZero shapes[i] * ((shapes.drop (i + 1)).map skipZero).prod := by
  rw [List.drop_eq_getElem_cons hi, List.map_cons, List.prod_cons]

theorem skipZero_prod_pos (l : List Int) (hpos : ∀ x ∈ l, 0 ≤ x) :
    1 ≤ (l.map skipZero).prod := by
  induction l with
  | nil => simp
  | cons a l ih =>
    rw [List.map_cons, List.prod_cons]
    have ha : 1 ≤ skipZero a := by
      have := hpos a (List.mem_cons_self _ _)
      unfold skipZero
      split_ifs <;> omega
    exact one_le_mul_of_one_le_of_one_le ha (ih (fun x hx => hpos x (List.mem_cons_of_mem _ hx)))

theorem suffixProd_le (shapes : List Int) (hpos : ∀ x ∈ shapes, 0 ≤ x) (i : Nat) :
    ((shapes.drop i).map skipZero).prod ≤ (shapes.map skipZero).prod := by
  have h1 : 1 ≤ ((shapes.take i).map skipZero).prod :=
    skipZero_prod_pos _ (fun x hx => hpos x (List.mem_of_mem_take hx))
  have h2 : 1 ≤ ((shapes.drop i).map skipZero).prod :=
    skipZero_prod_pos _ (fun x hx => hpos x (List.mem_of_mem_drop hx))
  have h3 : (shapes.map skipZero).prod =
      ((shapes.take i).map skipZero).prod * ((shapes.drop i).map skipZero).prod := by
    rw [← List.prod_append, ← List.map_append, List.take_append_drop]
  rw [h3]
  exact le_mul_of_one_le_left (by omega) h1

theorem nextStride_nonneg {s x : Int} (hs : 1 ≤ s) (hx : 0 ≤ x)
    (hfit : s * skipZero x < 2 ^ 63) : nextStride s x = s * skipZero x := by
  unfold nextStride skipZero at *
  by_cases h0 : x = 0
  · simp [h0]
  · have h1 : x ≠ -1 := by omega
    have h2 : s ≠ -1 := by omega
    simp only [h0, h1, h2, if_false] at hfit ⊢
    have h3 : 0 ≤ s * x := mul_nonneg (by omega) hx
    exact wrapInt64_of_inRange (by omega) hfit

theorem skipZero_map_of_pos (l : List Int) (hpos : ∀ x ∈ l, 0 < x) : l.map skipZero = l := by
  induction l with
  | nil => rfl
  | cons a l ih =>
    have ha := hpos a (List.mem_cons_self _ _)
    rw [List.map_cons, ih (fun x hx => hpos x (List.mem_cons_of_mem _ hx))]
    simp [skipZero]
    omega

/-- For extents that are all non-negative and whose running product stays below `2 ^ 63`, the
`Contiguous` strides are the running products of the extents to the right. -/
theorem contiguousStrides_nonneg (shapes : List Int) (hpos : ∀ x ∈ shapes, 0 ≤ x)
    (hfit : (shapes.map skipZero).prod < 2 ^ 63) :
    ∃ strides, contiguousStrides shapes MemoryFormat.Contiguous = some strides ∧
      strides.length = shapes.length ∧
      ∀ j, j < shapes.length →
        strides[j]? = some (((shapes.drop (j + 1)).map skipZero).prod) := by
  obtain ⟨strides, hs, hlen, hlast, hrec⟩ := contiguousStrides_spec shapes
  refine ⟨strides, hs, hlen, ?_⟩
  have key : ∀ k j, j + 1 + k = shapes.length →
      strides[j]? = some (((shapes.drop (j + 1)).map skipZero).prod) := by
    intro k
    induction k with
    | zero =>
      intro j hj
      rw [hlast j (by omega), List.drop_of_length_le (by omega)]
      simp
    | succ k ih =>
      intro j hj
      have h1 := ih (j + 1) (by omega)
      have hx : shapes[j + 1]? = some shapes[j + 1] := List.getElem?_eq_getElem (by omega)
      rw [hrec j _ _ (by omega) h1 hx, suffixProd_step shapes (j + 1) (by omega)]
      have hge : 1 ≤ ((shapes.drop (j + 1 + 1)).map skipZero).prod :=
        skipZero_prod_pos _ (fun x hx => hpos x (List.mem_of_mem_drop hx))
      have hle := suffixProd_le shapes hpos (j + 1)
      rw [suffixProd_step shapes (j + 1) (by omega)] at hle
      rw [nextStride_nonneg hge (hpos _ (List.getElem_mem _)) (by
        rw [mul_comm]; omega)]
      exact congrArg some (mul_comm _ _)
  intro j hj
  exact key (shapes.length - (j + 1)) j (by omega)

theorem nextStride_neg_one (x : Int) : nextStride (-1) x = -1 := by
  unfold nextStride
  split_ifs with h1 h2 h3
  · rfl
  · rfl
  · rfl
  · exact absurd rfl h3

theorem nextStride_regular {s x : Int} (hx0 : x ≠ 0) (hx1 : x ≠ -1) (hs : s ≠ -1)
    (h1 : -2 ^ 63 ≤ s * x) (h2 : s * x < 2 ^ 63) : nextStride s x = s * x := by
  unfold nextStride
  simp only [hx0, hx1, hs, if_false]
  exact wrapInt64_of_inRange h1 h2

theorem mul_ne_neg_one {a b : Int} (ha : a ≠ -1) (hb : b ≠ -1) : a * b ≠ -1 := by
  intro h
  rcases Int.mul_eq_neg_one_iff_eq_one_or_neg_one.mp h with ⟨_, h2⟩ | ⟨h1, _⟩
  · exact hb h2
  · exact ha h1

/-! ## Claims on layout synthesis -/

/-- C14 (as stated) fails for an extent of -1: with extents [2, -1, 3, 4] the `ChannelsLast`
strides requested are [-1, 1, -1, -1], while C*W = -4 and C*W*H = -12. -/
theorem C14_counterexample_degenerate_extent :
    (DiopiTensor.mk 7 diopi_dtype_float32 [2, -1, 3, 4]).contiguous emptyRuntime
        MemoryFormat.ChannelsLast =
      some (Runtime.mk 1
          [RequireCall.mk [2, -1, 3, 4] (some [-1, 1, -1, -1]) diopi_dtype_float32] [],
        DiopiTensor.mk 0 diopi_dtype_float32 [2, -1, 3, 4]) ∧
    ((-1 : Int) * 4 ≠ -1) := by
  decide

/-- C14 (amended): for a rank-4 tensor with extents [N, C, H, W], none of them zero and none
of C, H, W equal to -1, whose running products C, C*W, C*W*H, C*W*H*N are in the int64 range,
`contiguous(ctx, ChannelsLast)` requests a tensor of the same shape and element type with
strides stride[0] = C*W*H, stride[1] = 1, stride[2] = C*W, stride[3] = C. -/
theorem C14_channels_last_strides (ctx : Runtime) (t : DiopiTensor) (N C H W : Int)
    (hshape : t.shape = [N, C, H, W])
    (hzero : N ≠ 0 ∧ C ≠ 0 ∧ H ≠ 0 ∧ W ≠ 0)
    (hmark : C ≠ -1 ∧ H ≠ -1 ∧ W ≠ -1)
    (hfit : ∀ p ∈ [C, C * W, C * W * H, C * W * H * N], -2 ^ 63 ≤ p ∧ p < 2 ^ 63) :
    t.contiguous ctx MemoryFormat.ChannelsLast =
      some (diopiRequireTensor ctx [N, C, H, W] (some [C * W * H, 1, C * W, C]) t.dtype) := by
  obtain ⟨_, hC, hH, hW⟩ := hzero
  obtain ⟨hC1, hH1, hW1⟩ := hmark
  have f1 := hfit C (by simp)
  have f2 := hfit (C * W) (by simp)
  have f3 := hfit (C * W * H) (by simp)
  have s1 : nextStride 1 C = C := by
    rw [nextStride_regular hC hC1 (by decide) (by rw [one_mul]; exact f1.1)
      (by rw [one_mul]; exact f1.2), one_mul]
  have s2 : nextStride C W = C * W := nextStride_regular hW hW1 hC1 f2.1 f2.2
  have s3 : nextStride (C * W) H = C * W * H :=
    nextStride_regular hH hH1 (mul_ne_neg_one hC1 hW1) f3.1 f3.2
  have e1 := strideStep_eq [N, C, H, W] [0, 0, 0, 0] 1 C 1 (by simp) rfl
  have e2 := strideStep_eq [N, C, H, W] [0, 1, 0, 0] C W 3 (by simp) rfl
  have e3 := strideStep_eq [N, C, H, W] [0, 1, 0, C] (C * W) H 2 (by simp) rfl
  have e4 := strideStep_eq [N, C, H, W] [0, 1, C * W, C] (C * W * H) N 0 (by simp) rfl
  rw [s1] at e1
  rw [s2] at e2
  rw [s3] at e3
  simp only [List.set_cons_succ, List.set_cons_zero] at e1 e2 e3 e4
  have hs : contiguousStrides [N, C, H, W] MemoryFormat.ChannelsLast =
      some [C * W * H, 1, C * W, C] := by
    simp only [contiguousStrides, List.length_cons, List.length_nil, List.replicate,
      channelsLastLoop, e1, e2, e3, e4]
    rfl
  simp only [DiopiTensor.contiguous, hshape, hs]

/-- C14 (amended) at a concrete input: extents [2, 5, 3, 4] give strides [60, 1, 20, 5]. -/
theorem C14_channels_last_witness :
    (DiopiTensor.mk 7 diopi_dtype_float32 [2, 5, 3, 4]).contiguous emptyRuntime
        MemoryFormat.ChannelsLast =
      some (Runtime.mk 1
          [RequireCall.mk [2, 5, 3, 4] (some [60, 1, 20, 5]) diopi_dtype_float32] [],
        DiopiTensor.mk 0 diopi_dtype_float32 [2, 5, 3, 4]) :=
  (C14_channels_last_strides emptyRuntime (DiopiTensor.mk 7 diopi_dtype_float32 [2, 5, 3, 4])
    2 5 3 4 rfl (by decide) (by decide) (by decide)).trans (by decide)

/-- C15 (as stated) fails when the running product leaves the int64 range: the extents
[0, 2^62, 4] are all non-negative and the `Contiguous` strides requested are [0, 4, 1], while
stride[1] × e(1) = 4 × 2^62 is not 0. -/
theorem C15_counterexample_int64_range :
    (DiopiTensor.mk 7 diopi_dtype_float32 [0, 4611686018427387904, 4]).contiguous emptyRuntime
        MemoryFormat.Contiguous =
      some (Runtime.mk 1
          [RequireCall.mk [0, 4611686018427387904, 4] (some [0, 4, 1]) diopi_dtype_float32] [],
        DiopiTensor.mk 0 diopi_dtype_float32 [0, 4611686018427387904, 4]) ∧
    (∀ x ∈ [(0 : Int), 4611686018427387904, 4], 0 ≤ x) ∧
    (4611686018427387904 : Int) = 2 ^ 62 ∧
    (4 : Int) * skipZero 4611686018427387904 ≠ 0 := by
  decide

/-- C15 (amended): for a non-empty shape whose extents are all non-negative and whose running
product of non-zero extents is in the int64 range, `contiguous(ctx, Contiguous)` requests
strides with
stride[last] = 1 and stride[i] = stride[i+1] × e(i+1) for every i before the last, where e(j) is
the extent of dimension j, or 1 if that extent is zero; each stride is the product of the e(j)
to its right, which for all-positive extents is the product of the extents to its right. -/
theorem C15_contiguous_strides (ctx : Runtime) (t : DiopiTensor) (hne : t.shape ≠ [])
    (hpos : ∀ x ∈ t.shape, 0 ≤ x) (hfit : (t.shape.map skipZero).prod < 2 ^ 63) :
    ∃ strides,
      t.contiguous ctx MemoryFormat.Contiguous =
        some (diopiRequireTensor ctx t.shape (some strides) t.dtype) ∧
      strides.length = t.shape.length ∧
      strides[t.shape.length - 1]? = some 1 ∧
      (∀ i s x, strides[i + 1]? = some s → t.shape[i + 1]? = some x →
        strides[i]? = some (s * skipZero x)) ∧
      (∀ i, i < t.shape.length →
        strides[i]? = some (((t.shape.drop (i + 1)).map skipZero).prod)) ∧
      ((∀ x ∈ t.shape, 0 < x) →
        ∀ i, i < t.shape.length → strides[i]? = some ((t.shape.drop (i + 1)).prod)) := by
  obtain ⟨strides, hs, hlen, hclosed⟩ := contiguousStrides_nonneg t.shape hpos hfit
  have hlenpos : 0 < t.shape.length := List.length_pos.mpr hne
  refine ⟨strides, by simp [DiopiTensor.contiguous, hs], hlen, ?_, ?_, hclosed, ?_⟩
  · rw [hclosed _ (by omega), List.drop_of_length_le (by omega)]
    simp
  · intro i s x hs1 hx
    have hi : i + 1 < t.shape.length := by
      by_contra hcon
      rw [List.getElem?_eq_none (by omega)] at hx
      cases hx
    rw [hclosed (i + 1) hi] at hs1
    cases hs1
    rw [hclosed i (by omega), suffixProd_step t.shape (i + 1) hi]
    have hxe : t.shape[i + 1] = x := by
      rw [List.getElem?_eq_getElem hi] at hx
      exact Option.some.inj hx
    rw [hxe, mul_comm]
  · intro hall i hi
    rw [hclosed i hi, skipZero_map_of_pos _ (fun x hx => hall x (List.mem_of_mem_drop hx))]

/-- C15 at a concrete input: extents [2, 0, 3, 4] give strides [12, 12, 4, 1]. -/
theorem C15_contiguous_witness :
    (DiopiTensor.mk 7 diopi_dtype_float32 [2, 0, 3, 4]).contiguous emptyRuntime
        MemoryFormat.Contiguous =
      some (Runtime.mk 1
          [RequireCall.mk [2, 0, 3, 4] (some [12, 12, 4, 1]) diopi_dtype_float32] [],
        DiopiTensor.mk 0 diopi_dtype_float32 [2, 0, 3, 4]) ∧
    ∃ strides,
      (DiopiTensor.mk 7 diopi_dtype_float32 [2, 0, 3, 4]).contiguous emptyRuntime
          MemoryFormat.Contiguous =
        some (diopiRequireTensor emptyRuntime [2, 0, 3, 4] (some strides) diopi_dtype_float32) ∧
      strides.length = 4 ∧ strides[3]? = some 1 ∧
      (∀ i s x, strides[i + 1]? = some s → [(2 : Int), 0, 3, 4][i + 1]? = some x →
        strides[i]? = some (s * skipZero x)) :=
  ⟨by decide,
    (C15_contiguous_strides emptyRuntime (DiopiTensor.mk 7 diopi_dtype_float32 [2, 0, 3, 4])
      (by decide) (by decide) (by decide)).imp
      (fun _ h => ⟨h.1, h.2.1, h.2.2.1, h.2.2.2.1⟩)⟩

/-- C16 (as stated) fails: with extents [0, 5] the `Contiguous` strides requested are [5, 1],
so the zero-extent dimension 0 has stride 5. -/
theorem C16_counterexample_zero_extent_stride :
    (DiopiTensor.mk 7 diopi_dtype_float32 [0, 5]).contiguous emptyRuntime
        MemoryFormat.Contiguous =
      some (Runtime.mk 1 [RequireCall.mk [0, 5] (some [5, 1]) diopi_dtype_float32] [],
        DiopiTensor.mk 0 diopi_dtype_float32 [0, 5]) := by
  decide

/-- C16 (amended): in the `Contiguous` synthesis a dimension `i` whose extent is zero is
skipped in the running product.  Its own stride is the running value handed on by the
dimension to its right (1 when it is the last dimension), and the dimension to its left
receives the same stride as it. -/
theorem C16_zero_extent_is_skipped (ctx : Runtime) (t : DiopiTensor) (i : Nat)
    (hzero : t.shape[i]? = some 0) :
    ∃ strides,
      t.contiguous ctx MemoryFormat.Contiguous =
        some (diopiRequireTensor ctx t.shape (some strides) t.dtype) ∧
      (i + 1 = t.shape.length → strides[i]? = some 1) ∧
      (∀ s x, strides[i + 1]? = some s → t.shape[i + 1]? = some x →
        strides[i]? = some (nextStride s x)) ∧
      (∀ j, j + 1 = i → strides[j]? = strides[i]?) := by
  obtain ⟨strides, hs, hlen, hlast, hrec⟩ := contiguousStrides_spec t.shape
  have hi : i < t.shape.length := by
    by_contra hcon
    rw [List.getElem?_eq_none (by omega)] at hzero
    cases hzero
  refine ⟨strides, by simp [DiopiTensor.contiguous, hs], hlast i, fun s x hs1 hx => ?_,
    fun j hj => ?_⟩
  · have hi1 : i + 1 < t.shape.length := by
      by_contra hcon
      rw [List.getElem?_eq_none (by omega)] at hx
      cases hx
    exact hrec i s x hi1 hs1 hx
  · subst hj
    have hsi : strides[j + 1]? = some strides[j + 1] := List.getElem?_eq_getElem (by omega)
    rw [hrec j _ 0 hi hsi hzero, hsi]
    simp [nextStride]

/-- C16 (amended) at a concrete input: extents [3, 0, 5], zero extent at dimension 1. -/
theorem C16_zero_extent_witness :
    [(3 : Int), 0, 5][1]? = some 0 ∧
    (DiopiTensor.mk 7 diopi_dtype_float32 [3, 0, 5]).contiguous emptyRuntime
        MemoryFormat.Contiguous =
      some (Runtime.mk 1 [RequireCall.mk [3, 0, 5] (some [5, 5, 1]) diopi_dtype_float32] [],
        DiopiTensor.mk 0 diopi_dtype_float32 [3, 0, 5]) ∧
    ∃ strides,
      (DiopiTensor.mk 7 diopi_dtype_float32 [3, 0, 5]).contiguous emptyRuntime
          MemoryFormat.Contiguous =
        some (diopiRequireTensor emptyRuntime [3, 0, 5] (some strides) diopi_dtype_float32) ∧
      (∀ j, j + 1 = 1 → strides[j]? = strides[1]?) :=
  ⟨by decide, by decide,
    (C16_zero_extent_is_skipped emptyRuntime (DiopiTensor.mk 7 diopi_dtype_float32 [3, 0, 5]) 1
      (by decide)).imp (fun _ h => ⟨h.1, h.2.2.2⟩)⟩

/-- C17 (as stated) fails: with extents [3, -1] the `Contiguous` strides requested are
[-1, 1]; the last dimension has extent -1 and stride 1. -/
theorem C17_counterexample_last_extent_marker :
    (DiopiTensor.mk 7 diopi_dtype_float32 [3, -1]).contiguous emptyRuntime
        MemoryFormat.Contiguous =
      some (Runtime.mk 1 [RequireCall.mk [3, -1] (some [-1, 1]) diopi_dtype_float32] [],
        DiopiTensor.mk 0 diopi_dtype_float32 [3, -1]) := by
  decide

/-- C17 (amended): in the `Contiguous` synthesis, for every non-empty shape, the stride of the
last dimension is 1, also when the extent of the last dimension is -1; in that case the
degenerate marker -1 is the stride of every dimension before the last. -/
theorem C17_last_stride_is_one (ctx : Runtime) (t : DiopiTensor) (hne : t.shape ≠ []) :
    ∃ strides,
      t.contiguous ctx MemoryFormat.Contiguous =
        some (diopiRequireTensor ctx t.shape (some strides) t.dtype) ∧
      strides.length = t.shape.length ∧
      strides[t.shape.length - 1]? = some 1 ∧
      (t.shape[t.shape.length - 1]? = some (-1) →
        ∀ j, j + 1 < t.shape.length → strides[j]? = some (-1)) := by
  obtain ⟨strides, hs, hlen, hlast, hrec⟩ := contiguousStrides_spec t.shape
  have hlenpos : 0 < t.shape.length := List.length_pos.mpr hne
  refine ⟨strides, by simp [DiopiTensor.contiguous, hs], hlen, hlast _ (by omega), fun hm => ?_⟩
  have key : ∀ k j, j + 2 + k = t.shape.length → strides[j]? = some (-1) := by
    intro k
    induction k with
    | zero =>
      intro j hj
      have h1 : strides[j + 1]? = some 1 := hlast (j + 1) (by omega)
      have h2 : t.shape[j + 1]? = some (-1) := by
        rw [← hm]; congr 1; omega
      rw [hrec j 1 (-1) (by omega) h1 h2]
      simp [nextStride]
    | succ k ih =>
      intro j hj
      have h1 := ih (j + 1) (by omega)
      have hx : t.shape[j + 1]? = some t.shape[j + 1] := List.getElem?_eq_getElem (by omega)
      rw [hrec j _ _ (by omega) h1 hx, nextStride_neg_one]
  intro j hj
  exact key (t.shape.length - (j + 2)) j (by omega)

/-- C17 (amended) at a concrete input: extents [3, 4, -1] give strides [-1, -1, 1]. -/
theorem C17_last_stride_witness :
    (DiopiTensor.mk 7 diopi_dtype_float32 [3, 4, -1]).contiguous emptyRuntime
        MemoryFormat.Contiguous =
      some (Runtime.mk 1 [RequireCall.mk [3, 4, -1] (some [-1, -1, 1]) diopi_dtype_float32] [],
        DiopiTensor.mk 0 diopi_dtype_float32 [3, 4, -1]) ∧
    ∃ strides,
      (DiopiTensor.mk 7 diopi_dtype_float32 [3, 4, -1]).contiguous emptyRuntime
          MemoryFormat.Contiguous =
        some (diopiRequireTensor emptyRuntime [3, 4, -1] (some strides) diopi_dtype_float32) ∧
      strides.length = 3 ∧ strides[2]? = some 1 :=
  ⟨by decide,
    (C17_last_stride_is_one emptyRuntime (DiopiTensor.mk 7 diopi_dtype_float32 [3, 4, -1])
      (by decide)).imp (fun _ h => ⟨h.1, h.2.1, h.2.2.1⟩)⟩


/-! ## Index bounds and the remaining formats -/

/-- A loop body at an index outside the `strides` vector is an out-of-bounds access. -/
theorem strideStep_out_of_bounds (shapes strides : List Int) (stride : Int) (k : Nat)
    (hk : ¬ k < strides.length) : strideStep shapes k (strides, stride) = none := by
  simp [strideStep, hk]

/-- The index loop returns when every index it visits is below the rank, and keeps the size of
the `strides` vector. -/
theorem channelsLastLoop_in_bounds (shapes : List Int) (ks : List Nat)
    (hks : ∀ k ∈ ks, k < shapes.length) :
    ∀ (strides : List Int) (stride : Int), strides.length = shapes.length →
      ∃ strides' stride', channelsLastLoop shapes ks (strides, stride) = some (strides', stride') ∧
        strides'.length = shapes.length := by
  induction ks with
  | nil => intro strides stride hlen; exact ⟨strides, stride, rfl, hlen⟩
  | cons k ks ih =>
    intro strides stride hlen
    have hk : k < shapes.length := hks k (List.mem_cons_self _ _)
    have hstep := strideStep_eq shapes strides stride shapes[k] k (by omega)
      (List.getElem?_eq_getElem hk)
    obtain ⟨strides', stride', hloop, hlen'⟩ :=
      ih (fun j hj => hks j (List.mem_cons_of_mem _ hj)) (strides.set k stride)
        (nextStride stride shapes[k]) (by simpa using hlen)
    exact ⟨strides', stride', by rw [channelsLastLoop, hstep]; exact hloop, hlen'⟩

/-- The index loop reaches an out-of-bounds access when one of its indices is not below the
rank. -/
theorem channelsLastLoop_out_of_bounds (shapes : List Int) (ks : List Nat)
    (hks : ∃ k ∈ ks, ¬ k < shapes.length) :
    ∀ (strides : List Int) (stride : Int), strides.length = shapes.length →
      channelsLastLoop shapes ks (strides, stride) = none := by
  induction ks with
  | nil => obtain ⟨k, hk, _⟩ := hks; simp at hk
  | cons k ks ih =>
    intro strides stride hlen
    by_cases hk : k < shapes.length
    · have hstep := strideStep_eq shapes strides stride shapes[k] k (by omega)
        (List.getElem?_eq_getElem hk)
      have hrest : ∃ j ∈ ks, ¬ j < shapes.length := by
        obtain ⟨j, hj, hjn⟩ := hks
        rcases List.mem_cons.mp hj with rfl | hj
        · exact absurd hk hjn
        · exact ⟨j, hj, hjn⟩
      rw [channelsLastLoop, hstep]
      exact ih hrest (strides.set k stride) (nextStride stride shapes[k]) (by simpa using hlen)
    · rw [channelsLastLoop, strideStep_out_of_bounds shapes strides stride k (by omega)]

/-- C21: the `ChannelsLast` synthesis visits the indices 1, 3, 2, 0 of the shape array and of
the `strides` vector, which has as many entries as the tensor has dimensions.  For a tensor of
rank at least 4 every one of these indices is below the rank and the synthesis returns its
strides; for a tensor of rank below 4 one of these indices is not below the rank and the
synthesis reaches an out-of-bounds access. -/
theorem C21_channels_last_index_bounds (ctx : Runtime) (t : DiopiTensor) :
    (List.replicate t.shape.length (0 : Int)).length = t.shape.length ∧
    (4 ≤ t.shape.length →
      (∀ k ∈ [1, 3, 2, 0], k < t.shape.length) ∧
      ∃ strides, contiguousStrides t.shape MemoryFormat.ChannelsLast = some strides ∧
        strides.length = t.shape.length ∧
        t.contiguous ctx MemoryFormat.ChannelsLast =
          some (diopiRequireTensor ctx t.shape (some strides) t.dtype)) ∧
    (t.shape.length < 4 →
      (∃ k ∈ [1, 3, 2, 0], ¬ k < t.shape.length) ∧
      contiguousStrides t.shape MemoryFormat.ChannelsLast = none ∧
      t.contiguous ctx MemoryFormat.ChannelsLast = none) := by
  refine ⟨by simp, fun h4 => ?_, fun h3 => ?_⟩
  · have hks : ∀ k ∈ [1, 3, 2, 0], k < t.shape.length := by
      intro k hk
      simp only [List.mem_cons, List.mem_singleton, List.not_mem_nil, or_false] at hk
      omega
    obtain ⟨strides', stride', hloop, hlen⟩ := channelsLastLoop_in_bounds t.shape [1, 3, 2, 0] hks
      (List.replicate t.shape.length 0) 1 (by simp)
    have hs : contiguousStrides t.shape MemoryFormat.ChannelsLast = some strides' := by
      simp [contiguousStrides, hloop]
    exact ⟨hks, strides', hs, hlen, by simp [DiopiTensor.contiguous, hs]⟩
  · have hks : ∃ k ∈ [1, 3, 2, 0], ¬ k < t.shape.length := ⟨3, by simp, by omega⟩
    have hloop := channelsLastLoop_out_of_bounds t.shape [1, 3, 2, 0] hks
      (List.replicate t.shape.length 0) 1 (by simp)
    have hs : contiguousStrides t.shape MemoryFormat.ChannelsLast = none := by
      simp [contiguousStrides, hloop]
    exact ⟨hks, hs, by simp [DiopiTensor.contiguous, hs]⟩

/-- C21 at concrete inputs: a rank-3 tensor reaches an out-of-bounds access, a rank-5 tensor
does not. -/
theorem C21_channels_last_index_witness :
    (DiopiTensor.mk 7 diopi_dtype_float32 [2, 5, 3]).contiguous emptyRuntime
        MemoryFormat.ChannelsLast = none ∧
    (DiopiTensor.mk 7 diopi_dtype_float32 [2, 5, 3, 4, 6]).contiguous emptyRuntime
        MemoryFormat.ChannelsLast =
      some (Runtime.mk 1
          [RequireCall.mk [2, 5, 3, 4, 6] (some [60, 1, 20, 5, 0]) diopi_dtype_float32] [],
        DiopiTensor.mk 0 diopi_dtype_float32 [2, 5, 3, 4, 6]) ∧
    ∃ strides, contiguousStrides [2, 5, 3, 4, 6] MemoryFormat.ChannelsLast = some strides ∧
      strides.length = 5 ∧
      (DiopiTensor.mk 7 diopi_dtype_float32 [2, 5, 3, 4, 6]).contiguous emptyRuntime
          MemoryFormat.ChannelsLast =
        some (diopiRequireTensor emptyRuntime [2, 5, 3, 4, 6] (some strides)
          diopi_dtype_float32) :=
  ⟨((C21_channels_last_index_bounds emptyRuntime
      (DiopiTensor.mk 7 diopi_dtype_float32 [2, 5, 3])).2.2 (by decide)).2.2,
    by decide,
    ((C21_channels_last_index_bounds emptyRuntime
      (DiopiTensor.mk 7 diopi_dtype_float32 [2, 5, 3, 4, 6])).2.1 (by decide)).2⟩

/-- C22: for the formats `ChannelsLast3d` and `Preserve`, `contiguous(ctx, format)` requests a
tensor of the same shape and element type with a stride vector that has as many entries as the
tensor has dimensions, every one of them zero; the request is the only thing added to the
runtime and the returned tensor has the shape and element type of the source. -/
theorem C22_other_formats_zero_strides (ctx : Runtime) (t : DiopiTensor) :
    t.contiguous ctx MemoryFormat.ChannelsLast3d =
      some (diopiRequireTensor ctx t.shape (some (List.replicate t.shape.length 0)) t.dtype) ∧
    t.contiguous ctx MemoryFormat.Preserve =
      some (diopiRequireTensor ctx t.shape (some (List.replicate t.shape.length 0)) t.dtype) ∧
    (List.replicate t.shape.length (0 : Int)).length = t.shape.length ∧
    (∀ i, i < t.shape.length → (List.replicate t.shape.length (0 : Int))[i]? = some 0) ∧
    (diopiRequireTensor ctx t.shape (some (List.replicate t.shape.length 0)) t.dtype).1 =
      Runtime.mk (ctx.nextHandle + 1)
        (ctx.required ++
          [RequireCall.mk t.shape (some (List.replicate t.shape.length 0)) t.dtype])
        ctx.casts ∧
    (diopiRequireTensor ctx t.shape (some (List.replicate t.shape.length 0)) t.dtype).2 =
      DiopiTensor.mk ctx.nextHandle t.dtype t.shape := by
  refine ⟨rfl, rfl, by simp, fun i hi => ?_, rfl, rfl⟩
  rw [List.getElem?_eq_getElem (by simpa using hi)]
  simp

/-- C22 at a concrete input: a tensor of shape [2, 5, 3, 4, 6] gets the strides
[0, 0, 0, 0, 0] for `ChannelsLast3d`, not the channel-last-3d ordering. -/
theorem C22_other_formats_witness :
    (DiopiTensor.mk 7 diopi_dtype_float32 [2, 5, 3, 4, 6]).contiguous emptyRuntime
        MemoryFormat.ChannelsLast3d =
      some (Runtime.mk 1
          [RequireCall.mk [2, 5, 3, 4, 6] (some [0, 0, 0, 0, 0]) diopi_dtype_float32] [],
        DiopiTensor.mk 0 diopi_dtype_float32 [2, 5, 3, 4, 6]) :=
  (C22_other_formats_zero_strides emptyRuntime
    (DiopiTensor.mk 7 diopi_dtype_float32 [2, 5, 3, 4, 6])).1.trans (by decide)

end impl.camb
